import Mathlib

/-!
# naviTrack (`script.js`): workout records, the controller and the persisted slot

A shallow embedding of `src/script.js`.

* Numbers are JavaScript numbers (`JSNum`): a finite value, held as the exact
  rational it is, `NaN`, `Infinity` or `-Infinity`.  Division rounds the exact
  quotient to binary64 (`round64`); the sign of zero is not modelled.
* Texts handled by a platform reader are classified by what the reader makes
  of them: the text of a form field by the number unary plus reads from it
  (`FieldText`), the text of the storage slot by the value `JSON.parse`
  reads from it (`StoredText`).
* The DOM, Leaflet and `alert` are sinks: a call to them is recorded as a
  command (`Cmd`) or as the way the handler completed (`Completion`).
* The clock is an input: every constructor call reads `new Date()` and
  `Date.now()` from a `Clock`.
-/

namespace NaviTrack

/-! ## Numbers -/

/-- A JavaScript number: a finite value, held as the exact rational it is, or
one of the three non-finite values.  Arithmetic rounds its results to binary64
(`round64`). -/
inductive JSNum
  | fin (q : ℚ)
  | nan
  | posInf
  | negInf
  deriving DecidableEq

namespace JSNum

/-- Rounding of an exact value to the nearest integer, ties to the even one. -/
def roundHalfEven (x : ℚ) : ℤ :=
  let f := ⌊x⌋
  let r := x - f
  if r < 1 / 2 then f else if 1 / 2 < r then f + 1 else if f % 2 = 0 then f else f + 1

/-- Rounding of an exact value to binary64, round to nearest, ties to even: the
exponent is that of the value, not below -1022 (below it the numbers are
subnormal), the significand has 53 bits, and a rounded magnitude of 2^1024 or
more is an infinity. -/
def round64 (q : ℚ) : JSNum :=
  if q = 0 then .fin 0
  else
    let a := |q|
    let e := max (Int.log 2 a) (-1022)
    let ulp : ℚ := 2 ^ (e - 52)
    let v : ℚ := roundHalfEven (a / ulp) * ulp
    if 2 ^ (1024 : ℕ) ≤ v then (if 0 < q then .posInf else .negInf)
    else .fin (if 0 < q then v else -v)

/-- The operator `/` on numbers: the exact quotient of two finite numbers
rounded to binary64, and the IEEE 754 results at zero and the infinities (with
one zero). -/
def div : JSNum → JSNum → JSNum
  | nan, _ => nan
  | _, nan => nan
  | fin a, fin b =>
      if b = 0 then (if a = 0 then nan else if 0 < a then posInf else negInf)
      else round64 (a / b)
  | fin _, posInf => fin 0
  | fin _, negInf => fin 0
  | posInf, fin b => if b < 0 then negInf else posInf
  | negInf, fin b => if b < 0 then posInf else negInf
  | posInf, posInf => nan
  | posInf, negInf => nan
  | negInf, posInf => nan
  | negInf, negInf => nan

/-- The operator `>` on numbers. -/
def gt : JSNum → JSNum → Bool
  | nan, _ => false
  | _, nan => false
  | fin a, fin b => decide (b < a)
  | fin _, posInf => false
  | fin _, negInf => true
  | posInf, posInf => false
  | posInf, _ => true
  | negInf, _ => false

/-- What `Number.isFinite` answers: used to state what the validation is
said to check, the source never calls it. -/
def isFinite : JSNum → Bool
  | fin _ => true
  | _ => false

end JSNum

/-! ## Errors, dates, JSON data -/

/-- The exceptions the modelled code can raise. -/
inductive JSError
  | typeError (msg : String)
  | syntaxError (msg : String)
  deriving DecidableEq

/-- A `Date` object, by what the program observes of it: `getMonth()`,
`getDate()` and the text `toJSON()` gives to `JSON.stringify`. -/
structure JSDate where
  month : Nat
  day : Nat
  iso : String
  deriving DecidableEq

/-- The clock readings one constructor call makes: `new Date()` for the field
`date`, then `Date.now()` for the field `id`. -/
structure Clock where
  date : JSDate
  now : Nat
  deriving DecidableEq

/-- A JSON document, as `JSON.parse` reads it and `JSON.stringify` writes it. -/
inductive JSON
  | null
  | bool (b : Bool)
  | num (q : ℚ)
  | str (s : String)
  | arr (xs : List JSON)
  | obj (props : List (String × JSON))

/-- The text held by the storage slot, classified by what `JSON.parse` makes
of it: `json v` is a text that parses to `v`, `malformed s` is a text `s` that
`JSON.parse` rejects with a `SyntaxError`. -/
inductive StoredText
  | json (v : JSON)
  | malformed (s : String)

/-- The text of a numeric form field, classified by what unary plus reads from
it: the empty text (read as `0`), or a text read as `n`. -/
inductive FieldText
  | empty
  | reads (n : JSNum)
  deriving DecidableEq

/-- Unary plus on the text of a field: `+input.value`. -/
def FieldText.toNumber : FieldText → JSNum
  | .empty => .fin 0
  | .reads n => n

/-! ## The classes `Workout`, `Running`, `Cycling` -/

/-- The month table of `_setDescription`. -/
def months : List String :=
  ["January", "February", "March", "April", "May", "June", "July", "August",
   "September", "October", "November", "December"]

/-- The field initialiser `id = (Date.now() + '').slice(-5)`: the decimal text of
the timestamp, from `max (length - 5) 0` to the end. -/
def Workout.id (now : Nat) : String :=
  let cs := (toString now).toList
  String.mk (cs.drop (cs.length - 5))

/-- The expression `this.type[0].toUpperCase() + this.type.slice(1)`; reading
`[0]` of the empty text gives `undefined`, whose `toUpperCase` is a TypeError.
Upper-casing is that of ASCII letters. -/
def capitalized (type : String) : Except JSError String :=
  match type.toList with
  | [] => .error (.typeError "Cannot read properties of undefined (reading 'toUpperCase')")
  | c :: cs => .ok (String.mk (c.toUpper :: cs))

/-- The value `Workout._setDescription` stores in `this.description`, from
`this.type` and `this.date`; a lookup outside the month table gives
`undefined`, which the template prints as such. -/
def Workout._setDescription (type : String) (date : JSDate) : Except JSError String := do
  let cap ← capitalized type
  let month := (months.get? date.month).getD "undefined"
  pure (cap ++ " on " ++ month ++ " " ++ toString date.day)

/-- An instance of class `Running`, fields in the order they are created.
`pace` and `description` are absent until `calcPace` and `_setDescription`
have run. -/
structure Running where
  date : JSDate
  id : String
  distance : JSNum
  duration : JSNum
  coords : ℚ × ℚ
  type : String
  cadence : JSNum
  pace : Option JSNum
  description : Option String
  deriving DecidableEq

/-- An instance of class `Cycling`, fields in the order they are created. -/
structure Cycling where
  date : JSDate
  id : String
  distance : JSNum
  duration : JSNum
  coords : ℚ × ℚ
  type : String
  elevationGain : JSNum
  speed : Option JSNum
  description : Option String
  deriving DecidableEq

/-- The method `calcPace`: stores `duration / distance` in `pace` and returns it. -/
def Running.calcPace (this : Running) : Running × JSNum :=
  let pace := this.duration.div this.distance
  ({ this with pace := some pace }, pace)

/-- The method `calcSpeed`: stores `distance / (duration / 60)` in `speed` and
returns it. -/
def Cycling.calcSpeed (this : Cycling) : Cycling × JSNum :=
  let speed := this.distance.div (this.duration.div (.fin 60))
  ({ this with speed := some speed }, speed)

/-- The constructor `new Running(coords, distance, duration, cadence)`. -/
def Running.new (clk : Clock) (coords : ℚ × ℚ) (distance duration cadence : JSNum) :
    Except JSError Running := do
  let this : Running :=
    { date := clk.date, id := Workout.id clk.now, distance := distance,
      duration := duration, coords := coords, type := "running", cadence := cadence,
      pace := none, description := none }
  let this := this.calcPace.1
  let description ← Workout._setDescription this.type this.date
  pure { this with description := some description }

/-- The constructor `new Cycling(coords, distance, duration, elevationGain)`. -/
def Cycling.new (clk : Clock) (coords : ℚ × ℚ) (distance duration elevationGain : JSNum) :
    Except JSError Cycling := do
  let this : Cycling :=
    { date := clk.date, id := Workout.id clk.now, distance := distance,
      duration := duration, coords := coords, type := "cycling",
      elevationGain := elevationGain, speed := none, description := none }
  let this := this.calcSpeed.1
  let description ← Workout._setDescription this.type this.date
  pure { this with description := some description }

/-! ## Values held in memory -/

/-- The values the controller holds and reads: primitives, arrays, the plain
objects `JSON.parse` builds, `Date` objects and instances of the two classes. -/
inductive JSVal
  | undefined
  | null
  | bool (b : Bool)
  | num (n : JSNum)
  | str (s : String)
  | date (d : JSDate)
  | arr (xs : List JSVal)
  | obj (props : List (String × JSVal))
  | running (w : Running)
  | cycling (w : Cycling)

/-- An optional field as a value: an absent field reads `undefined`. -/
def optNum : Option JSNum → JSVal
  | none => .undefined
  | some n => .num n

/-- An optional text field as a value. -/
def optStr : Option String → JSVal
  | none => .undefined
  | some s => .str s

/-- The array `[lat, lng]`. -/
def coordsVal (c : ℚ × ℚ) : JSVal :=
  .arr [.num (.fin c.1), .num (.fin c.2)]

/-- The own properties of a `Running` instance, in creation order. -/
def Running.props (w : Running) : List (String × JSVal) :=
  [("date", .date w.date), ("id", .str w.id), ("distance", .num w.distance),
   ("duration", .num w.duration), ("coords", coordsVal w.coords), ("type", .str w.type),
   ("cadence", .num w.cadence), ("pace", optNum w.pace),
   ("description", optStr w.description)]

/-- The own properties of a `Cycling` instance, in creation order. -/
def Cycling.props (w : Cycling) : List (String × JSVal) :=
  [("date", .date w.date), ("id", .str w.id), ("distance", .num w.distance),
   ("duration", .num w.duration), ("coords", coordsVal w.coords), ("type", .str w.type),
   ("elevationGain", .num w.elevationGain), ("speed", optNum w.speed),
   ("description", optStr w.description)]

/-- The property names the program reads and writes on a workout. -/
inductive Key
  | date | id | distance | duration | coords | type | cadence | pace | elevationGain | speed
  | description
  deriving DecidableEq

/-- The text of a property name. -/
def Key.name : Key → String
  | .date => "date"
  | .id => "id"
  | .distance => "distance"
  | .duration => "duration"
  | .coords => "coords"
  | .type => "type"
  | .cadence => "cadence"
  | .pace => "pace"
  | .elevationGain => "elevationGain"
  | .speed => "speed"
  | .description => "description"

/-- Lookup of a key among the properties of an object; a missing key reads
`undefined`. -/
def lookupProp (k : String) : List (String × JSVal) → JSVal
  | [] => .undefined
  | (k', v) :: ps => if k' = k then v else lookupProp k ps

/-- Property read `v.k` for one of the property names of a workout: a
TypeError on `undefined` and `null`, the own property of a plain object or of
an instance, `undefined` on every other value (no prototype of the values here
has a property of one of these names). -/
def JSVal.get (v : JSVal) (k : Key) : Except JSError JSVal :=
  match v with
  | .undefined =>
      .error (.typeError ("Cannot read properties of undefined (reading " ++ k.name ++ ")"))
  | .null => .error (.typeError ("Cannot read properties of null (reading " ++ k.name ++ ")"))
  | .obj ps => .ok (lookupProp k.name ps)
  | .running w => .ok (lookupProp k.name w.props)
  | .cycling w => .ok (lookupProp k.name w.props)
  | _ => .ok .undefined

/-- Truthiness of a value, as `!data` tests it. -/
def JSVal.truthy : JSVal → Bool
  | .undefined => false
  | .null => false
  | .bool b => b
  | .num (.fin q) => decide (q ≠ 0)
  | .num .nan => false
  | .num _ => true
  | .str s => decide (s ≠ "")
  | _ => true

/-- Strict equality `v === s` with a text `s`. -/
def JSVal.strictEqStr : JSVal → String → Bool
  | .str t, s => decide (t = s)
  | _, _ => false

/-! ## `JSON.stringify` and `JSON.parse` -/

/-- How `JSON.stringify` writes a number: non-finite numbers become `null`. -/
def numToJSON : JSNum → JSON
  | .fin q => .num q
  | _ => .null

/-- An optional property of a written object: absent (`undefined`) properties
are left out. -/
def optProp (k : String) : Option JSON → List (String × JSON)
  | none => []
  | some j => [(k, j)]

/-- The document `JSON.stringify` writes for a `Running` instance: its own
properties in creation order, the date through `toJSON`. -/
def Running.toJSON (w : Running) : JSON :=
  .obj ([("date", JSON.str w.date.iso), ("id", .str w.id),
    ("distance", numToJSON w.distance), ("duration", numToJSON w.duration),
    ("coords", .arr [.num w.coords.1, .num w.coords.2]), ("type", .str w.type),
    ("cadence", numToJSON w.cadence)]
    ++ optProp "pace" (w.pace.map numToJSON)
    ++ optProp "description" (w.description.map JSON.str))

/-- The document `JSON.stringify` writes for a `Cycling` instance. -/
def Cycling.toJSON (w : Cycling) : JSON :=
  .obj ([("date", JSON.str w.date.iso), ("id", .str w.id),
    ("distance", numToJSON w.distance), ("duration", numToJSON w.duration),
    ("coords", .arr [.num w.coords.1, .num w.coords.2]), ("type", .str w.type),
    ("elevationGain", numToJSON w.elevationGain)]
    ++ optProp "speed" (w.speed.map numToJSON)
    ++ optProp "description" (w.description.map JSON.str))

mutual
/-- The document `JSON.stringify` writes for a value; `none` when it writes
nothing (`undefined`).  A `Date` is written through `toJSON`, an instance by its
own properties. -/
def JSVal.toJSON : JSVal → Option JSON
  | .undefined => none
  | .null => some .null
  | .bool b => some (.bool b)
  | .num n => some (numToJSON n)
  | .str s => some (.str s)
  | .date d => some (.str d.iso)
  | .arr xs => some (.arr (elemsToJSON xs))
  | .obj ps => some (.obj (propsToJSON ps))
  | .running w => some w.toJSON
  | .cycling w => some w.toJSON
/-- The elements of an array: an element that writes nothing is written `null`. -/
def elemsToJSON : List JSVal → List JSON
  | [] => []
  | x :: xs => (x.toJSON.getD .null) :: elemsToJSON xs
/-- The properties of an object: a property that writes nothing is left out. -/
def propsToJSON : List (String × JSVal) → List (String × JSON)
  | [] => []
  | (k, v) :: ps =>
      match v.toJSON with
      | none => propsToJSON ps
      | some j => (k, j) :: propsToJSON ps
end

mutual
/-- The value `JSON.parse` builds from a document. -/
def JSON.toVal : JSON → JSVal
  | .null => .null
  | .bool b => .bool b
  | .num q => .num (.fin q)
  | .str s => .str s
  | .arr xs => .arr (elemsToVal xs)
  | .obj ps => .obj (propsToVal ps)
/-- The elements of a parsed array. -/
def elemsToVal : List JSON → List JSVal
  | [] => []
  | x :: xs => x.toVal :: elemsToVal xs
/-- The properties of a parsed object. -/
def propsToVal : List (String × JSON) → List (String × JSVal)
  | [] => []
  | (k, v) :: ps => (k, v.toVal) :: propsToVal ps
end

/-- The text `localStorage.setItem` receives from `JSON.stringify(v)`; when
`stringify` returns `undefined` the slot gets the text `undefined`, which is
not JSON. -/
def JSON.stringify (v : JSVal) : StoredText :=
  match v.toJSON with
  | some j => .json j
  | none => .malformed "undefined"

/-- The call `JSON.parse(localStorage.getItem('workouts'))`: an absent item is
`null`, whose text parses to `null`. -/
def JSON.parse : Option StoredText → Except JSError JSVal
  | none => .ok .null
  | some (.json v) => .ok v.toVal
  | some (.malformed s) => .error (.syntaxError ("Unexpected token in JSON: " ++ s))

/-! ## The controller `App` -/

/-- A command issued to the map or to the page.
* `placeMarker coords type description`: `L.marker(coords)` added to the map
  with a popup of class `type-popup` and content `description`;
* `listItem ..`: the `<li>` built from the values read off a workout, inserted
  after the form; `metric` and `extra` are `pace` and `cadence` when the type
  is `'running'`, `speed` and `elevationGain` otherwise;
* `setView coords zoom`: `map.setView(coords, zoom, ..)`. -/
inductive Cmd
  | placeMarker (coords type description : JSVal)
  | listItem (id type description distance duration metric extra : JSVal)
  | setView (coords : JSVal) (zoom : Nat)

/-- The form element and its inputs. -/
structure Form where
  hidden : Bool
  display : String
  type : String
  distance : FieldText
  duration : FieldText
  cadence : FieldText
  elevation : FieldText

/-- The state of the application: the private fields of `App`, the storage
slot, the form, and the commands issued so far.  `mapEvent` holds the `latlng`
of the last map click, `map` tells whether `#map` has been assigned. -/
structure App where
  mapEvent : Option (ℚ × ℚ)
  map : Bool
  workouts : JSVal
  storage : Option StoredText
  form : Form
  commands : List Cmd

/-- The private field `#mapZoomLevel`. -/
def mapZoomLevel : Nat := 13

/-- How a handler ends: it runs to the end of its body, it leaves through
`return alert(msg)`, or it throws; each with the state it leaves. -/
inductive Completion
  | returned (s : App)
  | alerted (msg : String) (s : App)
  | threw (e : JSError) (s : App)

/-- The method `_showForm`: keeps the event and opens the form. -/
def App._showForm (latlng : ℚ × ℚ) (s : App) : App :=
  { s with mapEvent := some latlng, form := { s.form with hidden := false } }

/-- The method `_hideForm`: hides the form and empties the four inputs.  The
timer that sets `display` back to `grid` a second later is outside the call. -/
def App._hideForm (s : App) : App :=
  { s with form := { s.form with display := "none", hidden := true, distance := .empty,
                                 duration := .empty, cadence := .empty, elevation := .empty } }

/-- The property `inp.isFinite` of a number: numbers have no such property
(`isFinite` is a function of the constructor `Number`), so it reads `undefined`. -/
def isFiniteProperty (_inp : JSNum) : JSVal := .undefined

/-- The local function `checkInputs` of `_newWorkout`:
`inputs.every(inp => !inp.isFinite && inp > 0)`. -/
def checkInputs (inputs : List JSNum) : Bool :=
  inputs.all fun inp => !(isFiniteProperty inp).truthy && inp.gt (.fin 0)

/-- The method `_renderWorkoutMarker`: reads `coords`, needs the map, reads
`type` and `description`, and places the marker. -/
def App._renderWorkoutMarker (workout : JSVal) (s : App) : Except JSError App := do
  let coords ← workout.get .coords
  if !s.map then
    throw (.typeError "Cannot read properties of undefined (reading 'addLayer')")
  let type ← workout.get .type
  let description ← workout.get .description
  pure { s with commands := s.commands ++ [.placeMarker coords type description] }

/-- The method `_renderWorkout`: builds the list item from the values read off
the workout and inserts it after the form.  The template turns each value into
text; for the values of a record (texts, numbers, `null`, `undefined`) that
conversion does not throw, and it is taken not to throw. -/
def App._renderWorkout (workout : JSVal) (s : App) : Except JSError App := do
  let type ← workout.get .type
  let id ← workout.get .id
  let description ← workout.get .description
  let distance ← workout.get .distance
  let duration ← workout.get .duration
  if type.strictEqStr "running" then
    let pace ← workout.get .pace
    let cadence ← workout.get .cadence
    pure { s with commands :=
      s.commands ++ [.listItem id type description distance duration pace cadence] }
  else
    let speed ← workout.get .speed
    let elevationGain ← workout.get .elevationGain
    pure { s with commands :=
      s.commands ++ [.listItem id type description distance duration speed elevationGain] }

/-- The method `_setLocalStorage`: the slot gets the text of the whole sequence. -/
def App._setLocalStorage (s : App) : App :=
  { s with storage := some (JSON.stringify s.workouts) }

/-- The rest of `_newWorkout` once `workout` is decided (lines 172 to 181):
marker, list item, push, hide the form, store. -/
def App.finishNewWorkout (workout : JSVal) (s : App) : Completion :=
  match s._renderWorkoutMarker workout with
  | .error e => .threw e s
  | .ok s1 =>
    match s1._renderWorkout workout with
    | .error e => .threw e s1
    | .ok s2 =>
      match s2.workouts with
      | .arr xs =>
          .returned ({ s2 with workouts := .arr (xs ++ [workout]) }._hideForm._setLocalStorage)
      | _ => .threw (.typeError "this.#workouts.push is not a function") s2

/-- The message of the validation alert. -/
def alertText : String := "The Input values should be positive"

/-- The handler `_newWorkout`, run at clock reading `clk`.  The call
`formEvent.preventDefault()` acts on the event only.  The two `if` statements
on `type` exclude each other and the first returns or falls through, so they
are written as one chain; with a type that is neither, `workout` stays
`undefined`. -/
def App._newWorkout (clk : Clock) (s : App) : Completion :=
  let type := s.form.type
  let distance := s.form.distance.toNumber
  let duration := s.form.duration.toNumber
  match s.mapEvent with
  | none => .threw (.typeError "Cannot read properties of undefined (reading 'latlng')") s
  | some (lat, lng) =>
    if type = "running" then
      let cadence := s.form.cadence.toNumber
      if !checkInputs [distance, duration, cadence] then .alerted alertText s
      else
        match Running.new clk (lat, lng) distance duration cadence with
        | .error e => .threw e s
        | .ok workout => s.finishNewWorkout (.running workout)
    else if type = "cycling" then
      let elevation := s.form.elevation.toNumber
      if !checkInputs [distance, duration] then .alerted alertText s
      else
        match Cycling.new clk (lat, lng) distance duration elevation with
        | .error e => .threw e s
        | .ok workout => s.finishNewWorkout (.cycling workout)
    else s.finishNewWorkout .undefined

/-- The call `this.#workouts.find(val => val.id === id)` on the elements of the
array: the first element whose `id` is the text `id`, `undefined` when there
is none; reading `id` of an element `null` throws. -/
def findById (id : String) : List JSVal → Except JSError JSVal
  | [] => .ok .undefined
  | val :: rest => do
      let v ← val.get .id
      if v.strictEqStr id then pure val else findById id rest

/-- The handler `_moveToPopup`.  The click is given by what `closest('.workout')`
finds: `none` when the click is outside every workout element, else the
`data-id` of the element. -/
def App._moveToPopup (target : Option String) (s : App) : Completion :=
  match target with
  | none => .returned s
  | some id =>
    match s.workouts with
    | .arr xs =>
      match findById id xs with
      | .error e => .threw e s
      | .ok workout =>
        if !s.map then
          .threw (.typeError "Cannot read properties of undefined (reading 'setView')") s
        else
          match workout.get .coords with
          | .error e => .threw e s
          | .ok coords => .returned { s with commands := s.commands ++ [.setView coords mapZoomLevel] }
    | _ => .threw (.typeError "this.#workouts.find is not a function") s

/-- The loop `this.#workouts.forEach(work => this._renderWorkout(work))`. -/
def App.renderAll : List JSVal → App → Completion
  | [], s => .returned s
  | work :: rest, s =>
    match s._renderWorkout work with
    | .error e => .threw e s
    | .ok s1 => App.renderAll rest s1

/-- The method `_getLocalStorage`. -/
def App._getLocalStorage (s : App) : Completion :=
  match JSON.parse s.storage with
  | .error e => .threw e s
  | .ok data =>
    if !data.truthy then .returned s
    else
      let s1 := { s with workouts := data }
      match data with
      | .arr xs => App.renderAll xs s1
      | _ => .threw (.typeError "this.#workouts.forEach is not a function") s1

/-! ## Notions used to state the properties -/

/-- A value of binary64: a significand below 2^53 times a power of two not
below 2^-1074, of magnitude below 2^1024. -/
def IsDouble (q : ℚ) : Prop :=
  ∃ (m : ℕ) (j : ℤ), m < 2 ^ 53 ∧ -1074 ≤ j ∧ |q| = m * 2 ^ j ∧ |q| < 2 ^ (1024 : ℕ)

/-- A record built by one of the two constructors from finite positive distance
and duration, with a finite positive cadence (running) or a finite elevation
gain (cycling). -/
def Built (w : JSVal) : Prop :=
  (∃ (clk : Clock) (coords : ℚ × ℚ) (d t c : ℚ) (r : Running), 0 < d ∧ 0 < t ∧ 0 < c
      ∧ Running.new clk coords (.fin d) (.fin t) (.fin c) = .ok r ∧ w = .running r)
  ∨ (∃ (clk : Clock) (coords : ℚ × ℚ) (d t e : ℚ) (c : Cycling), 0 < d ∧ 0 < t
      ∧ Cycling.new clk coords (.fin d) (.fin t) (.fin e) = .ok c ∧ w = .cycling c)

/-- The metric of a record is a finite number: its `pace` or its `speed`. -/
def FiniteMetric (w : JSVal) : Prop :=
  ∃ x : ℚ, w.get .pace = .ok (.num (.fin x)) ∨ w.get .speed = .ok (.num (.fin x))

/-- The value read back for `w`: what `JSON.parse` builds from what
`JSON.stringify` wrote for `w` as an element of an array. -/
def restored (w : JSVal) : JSVal :=
  (w.toJSON.getD .null).toVal

/-- The metric of a record agrees with its distance and duration: a record of
type `'running'` has numbers `distance`, `duration` and `pace = duration /
distance`; one of type `'cycling'` has `speed = distance / (duration / 60)`. -/
def MetricConsistent (w : JSVal) : Prop :=
  (w.get .type = .ok (.str "running") ∨ w.get .type = .ok (.str "cycling"))
  ∧ (w.get .type = .ok (.str "running") →
      ∃ d t, w.get .distance = .ok (.num d) ∧ w.get .duration = .ok (.num t)
        ∧ w.get .pace = .ok (.num (t.div d)))
  ∧ (w.get .type = .ok (.str "cycling") →
      ∃ d t, w.get .distance = .ok (.num d) ∧ w.get .duration = .ok (.num t)
        ∧ w.get .speed = .ok (.num (d.div (t.div (.fin 60)))))

/-- An instance of one of the two classes. -/
def IsInstance (w : JSVal) : Prop :=
  (∃ r, w = .running r) ∨ (∃ c, w = .cycling c)

/-- A workout as the controller holds it: an instance, or the plain object
read back for one. -/
def IsRecord (w : JSVal) : Prop :=
  IsInstance w ∨ ∃ ps, w = .obj ps

/-- Whether a command is a list item. -/
def Cmd.isListItem : Cmd → Bool
  | .listItem .. => true
  | _ => false

/-- Whether reading `id` off `w` gives the text `id`: the test of `find`. -/
def hasId (id : String) (w : JSVal) : Bool :=
  match w.get .id with
  | .ok v => v.strictEqStr id
  | .error _ => false

/-- The value of a decimal digit character. -/
def digitVal (c : Char) : Nat := c.toNat - 48

/-- The number a list of decimal digits denotes. -/
def decode (cs : List Char) : Nat := cs.foldl (fun acc c => 10 * acc + digitVal c) 0

/-! ## Sessions -/

/-- One submission of the user: a click on the map at `latlng`, the values
typed into the form, and the clock reading at which the form is submitted. -/
structure Submission where
  clk : Clock
  latlng : ℚ × ℚ
  type : String
  distance : JSNum
  duration : JSNum
  cadence : JSNum
  elevation : JSNum

/-- The state a handler leaves, however it ends. -/
def Completion.state : Completion → App
  | .returned s => s
  | .alerted _ s => s
  | .threw _ s => s

/-- The user types into the form. -/
def App.fillForm (type : String) (distance duration cadence elevation : JSNum) (s : App) : App :=
  { s with form := { s.form with type := type, distance := .reads distance,
                                 duration := .reads duration, cadence := .reads cadence,
                                 elevation := .reads elevation } }

/-- One submission run on a state: the map click runs `_showForm`, the user
fills the form, the submit event runs `_newWorkout`; the session goes on from
the state the handler leaves. -/
def App.submit (sub : Submission) (s : App) : App :=
  (((s._showForm sub.latlng).fillForm sub.type sub.distance sub.duration sub.cadence
    sub.elevation)._newWorkout sub.clk).state

/-- A session: submissions run one after the other. -/
def App.session (subs : List Submission) (s : App) : App :=
  subs.foldl (fun s sub => s.submit sub) s

/-! ## Sample inputs -/

/-- A clock reading: 4 November, timestamp 1700000012345. -/
def sampleClock : Clock :=
  { date := { month := 10, day := 4, iso := "2026-11-04T10:00:00.000Z" }, now := 1700000012345 }

/-- A form open on the given type and field readings. -/
def openForm (type : String) (distance duration cadence elevation : JSNum) : Form :=
  { hidden := false, display := "grid", type := type, distance := .reads distance,
    duration := .reads duration, cadence := .reads cadence, elevation := .reads elevation }

/-- A session awaiting input: the map is loaded, a click at (40, -73) is
pending, the given workouts are in memory, the slot holds `storage`. -/
def awaiting (workouts : List JSVal) (storage : Option StoredText) (form : Form) : App :=
  { mapEvent := some (40, -73), map := true, workouts := .arr workouts, storage := storage,
    form := form, commands := [] }

/-- The record `new Running([40, -73], 5, 30, 150)` builds at `sampleClock`. -/
def sampleRunning : Running :=
  { date := sampleClock.date, id := "12345", distance := .fin 5, duration := .fin 30,
    coords := (40, -73), type := "running", cadence := .fin 150, pace := some (.fin 6),
    description := some "Running on November 4" }

/-- The record `new Cycling([40, -73], 5, 30, 100)` builds at `sampleClock`. -/
def sampleCycling : Cycling :=
  { date := sampleClock.date, id := "12345", distance := .fin 5, duration := .fin 30,
    coords := (40, -73), type := "cycling", elevationGain := .fin 100, speed := some (.fin 10),
    description := some "Cycling on November 4" }

/-- The state of a new `App` when its constructor body starts: `#workouts = []`,
`#map` and `#mapEvent` not assigned, nothing issued yet. -/
def App.fresh (storage : Option StoredText) (form : Form) : App :=
  { mapEvent := none, map := false, workouts := .arr [], storage := storage, form := form,
    commands := [] }

/-- A form not yet opened, with empty fields. -/
def closedForm : Form :=
  { hidden := true, display := "grid", type := "running", distance := .empty,
    duration := .empty, cadence := .empty, elevation := .empty }

/-- A clock reading with timestamp 1700000000000. -/
def clockA : Clock :=
  { date := { month := 10, day := 14, iso := "2023-11-14T22:13:20.000Z" }, now := 1700000000000 }

/-- A clock reading one hundred seconds later: timestamp 1700000100000. -/
def clockB : Clock :=
  { date := { month := 10, day := 14, iso := "2023-11-14T22:15:00.000Z" }, now := 1700000100000 }

/-- A run submitted at `sampleClock` and a ride submitted at `clockB`. -/
def sampleSubmissions : List Submission :=
  [{ clk := sampleClock, latlng := (40, -73), type := "running", distance := .fin 5,
     duration := .fin 30, cadence := .fin 150, elevation := .fin 0 },
   { clk := clockB, latlng := (41, -74), type := "cycling", distance := .fin 20,
     duration := .fin 60, cadence := .fin 0, elevation := .fin 100 }]

/-! # Theorems -/

/-! ## Records and their metric -/

theorem capitalized_running : capitalized "running" = .ok "Running" := by rfl

theorem capitalized_cycling : capitalized "cycling" = .ok "Cycling" := by rfl

/-- The record `new Running(..)` returns, in closed form. -/
theorem running_new_eq (clk : Clock) (coords : ℚ × ℚ) (distance duration cadence : JSNum) :
    Running.new clk coords distance duration cadence = .ok
      { date := clk.date, id := Workout.id clk.now, distance := distance,
        duration := duration, coords := coords, type := "running", cadence := cadence,
        pace := some (duration.div distance),
        description := some ("Running" ++ " on " ++ (months.get? clk.date.month).getD "undefined"
          ++ " " ++ toString clk.date.day) } := by
  simp only [Running.new, Running.calcPace, Workout._setDescription, capitalized_running]
  rfl

/-- The record `new Cycling(..)` returns, in closed form. -/
theorem cycling_new_eq (clk : Clock) (coords : ℚ × ℚ) (distance duration elevationGain : JSNum) :
    Cycling.new clk coords distance duration elevationGain = .ok
      { date := clk.date, id := Workout.id clk.now, distance := distance,
        duration := duration, coords := coords, type := "cycling",
        elevationGain := elevationGain,
        speed := some (distance.div (duration.div (.fin 60))),
        description := some ("Cycling" ++ " on " ++ (months.get? clk.date.month).getD "undefined"
          ++ " " ++ toString clk.date.day) } := by
  simp only [Cycling.new, Cycling.calcSpeed, Workout._setDescription, capitalized_cycling]
  rfl

theorem JSNum.div_fin_pos (a b : ℚ) (hb : 0 < b) :
    (JSNum.fin a).div (.fin b) = JSNum.round64 (a / b) := by
  simp [JSNum.div, hb.ne']

/-! ## Rounding to binary64 -/

theorem roundHalfEven_eq (x : ℚ) (n : ℤ) (h1 : (n : ℚ) - 1 / 2 < x) (h2 : x < n + 1 / 2) :
    JSNum.roundHalfEven x = n := by
  unfold JSNum.roundHalfEven
  rcases le_or_lt (n : ℚ) x with h | h
  · have hf : ⌊x⌋ = n := by
      rw [Int.floor_eq_iff]; constructor
      · exact h
      · linarith
    simp only [hf]
    rw [if_pos (by linarith)]
  · have hf : ⌊x⌋ = n - 1 := by
      rw [Int.floor_eq_iff]; constructor
      · push_cast; linarith
      · push_cast; linarith
    simp only [hf]
    rw [if_neg (by push_cast; linarith), if_pos (by push_cast; linarith)]
    ring

theorem log2_eq (a : ℚ) (e : ℤ) (ha : 0 < a) (hlo : (2 : ℚ) ^ e ≤ a)
    (hhi : a < (2 : ℚ) ^ (e + 1)) : Int.log 2 a = e := by
  have h1 : e ≤ Int.log 2 a :=
    (Int.zpow_le_iff_le_log (b := 2) (by norm_num) ha (x := e)).1 (by exact_mod_cast hlo)
  have h2 : Int.log 2 a < e + 1 :=
    (Int.lt_zpow_iff_log_lt (b := 2) (by norm_num) ha (x := e + 1)).1 (by exact_mod_cast hhi)
  omega

/-- The rounding of a positive value whose binade and nearest multiple of the
unit in the last place are known. -/
theorem round64_pos (q : ℚ) (e n : ℤ) (hq : 0 < q) (hlo : (2 : ℚ) ^ e ≤ q)
    (hhi : q < (2 : ℚ) ^ (e + 1)) (he : -1022 ≤ e)
    (h1 : (n : ℚ) - 1 / 2 < q / 2 ^ (e - 52)) (h2 : q / 2 ^ (e - 52) < n + 1 / 2) :
    JSNum.round64 q = if (2 : ℚ) ^ (1024 : ℕ) ≤ n * 2 ^ (e - 52) then .posInf
      else .fin (n * 2 ^ (e - 52)) := by
  unfold JSNum.round64
  have hlog := log2_eq q e hq hlo hhi
  simp only [hq.ne', if_false, abs_of_pos hq, hlog, max_eq_left he, hq, if_true,
    roundHalfEven_eq _ n h1 h2]

/-- A positive value of binary64 rounds to itself. -/
theorem round64_of_double (q : ℚ) (hq : 0 < q) (h : IsDouble q) : JSNum.round64 q = .fin q := by
  obtain ⟨m, j, hm, hj, hqm, hlt⟩ := h
  rw [abs_of_pos hq] at hqm hlt
  have h2 : (0 : ℚ) < 2 := by norm_num
  have hL : Int.log 2 q < j + 53 := by
    apply (Int.lt_zpow_iff_log_lt (b := 2) (by norm_num) hq (x := j + 53)).1
    have hm' : (m : ℚ) < 2 ^ (53 : ℕ) := by exact_mod_cast hm
    have hpos : (0 : ℚ) < 2 ^ j := zpow_pos h2 j
    have : (2 : ℚ) ^ (j + 53) = 2 ^ (53 : ℕ) * 2 ^ j := by
      rw [zpow_add₀ (by norm_num : (2 : ℚ) ≠ 0), mul_comm]; norm_cast
    push_cast
    rw [this, hqm]
    exact mul_lt_mul_of_pos_right hm' hpos
  obtain ⟨E, hE⟩ : ∃ E : ℤ, E = max (Int.log 2 q) (-1022) - 52 := ⟨_, rfl⟩
  have he : E ≤ j := by
    rw [hE]
    rcases max_choice (Int.log 2 q) (-1022) with h | h <;> rw [h] <;> omega
  obtain ⟨k, hk⟩ := Int.eq_ofNat_of_zero_le (sub_nonneg.2 he)
  have hne : (2 : ℚ) ^ E ≠ 0 := (zpow_pos h2 _).ne'
  have hx : q / 2 ^ E = ((m * 2 ^ k : ℕ) : ℤ) := by
    have hj' : j = E + k := by omega
    rw [hqm, hj', zpow_add₀ (by norm_num : (2 : ℚ) ≠ 0)]
    field_simp
    ring
  have hr : JSNum.roundHalfEven (q / 2 ^ E) = ((m * 2 ^ k : ℕ) : ℤ) := by
    apply roundHalfEven_eq <;> rw [hx] <;> linarith
  have hv : (((m * 2 ^ k : ℕ) : ℤ) : ℚ) * 2 ^ E = q := by
    rw [← hx]
    field_simp
  unfold JSNum.round64
  simp only [hq.ne', if_false, abs_of_pos hq, ← hE, hr, hv, hq, if_true, not_le.2 hlt]

theorem isDouble_pos (q : ℚ) (m : ℕ) (j : ℤ) (hq : 0 < q) (hm : m < 2 ^ 53) (hj : -1074 ≤ j)
    (hqm : q = m * 2 ^ j) (hlt : q < 2 ^ (1024 : ℕ)) : IsDouble q :=
  ⟨m, j, hm, hj, by rw [abs_of_pos hq]; exact hqm, by rw [abs_of_pos hq]; exact hlt⟩

theorem round64_six : JSNum.round64 (30 / 5) = .fin 6 := by
  rw [round64_of_double _ (by norm_num)
    (isDouble_pos _ 6 0 (by norm_num) (by norm_num) (by norm_num) (by norm_num) (by norm_num))]
  norm_num

theorem round64_half : JSNum.round64 (30 / 60) = .fin (1 / 2) := by
  rw [round64_of_double _ (by norm_num)
    (isDouble_pos _ 1 (-1) (by norm_num) (by norm_num) (by norm_num) (by norm_num) (by norm_num))]
  norm_num

theorem round64_ten : JSNum.round64 (5 / (1 / 2)) = .fin 10 := by
  rw [round64_of_double _ (by norm_num)
    (isDouble_pos _ 10 0 (by norm_num) (by norm_num) (by norm_num) (by norm_num) (by norm_num))]
  norm_num

/-- C1, as stated, fails: with the quotient taken as an exact rational.  A
run of 3 km in 10 min gets pace 7505999378950827 / 2^51 (the binary64 number
3.3333333333333335), not 10 / 3; a ride of 11 km in 11 min gets speed
8444249301319681 / 2^47 (60.00000000000001), not 60. -/
theorem metric_is_rounded :
    (∃ r, Running.new sampleClock (40, -73) (.fin 3) (.fin 10) (.fin 150) = .ok r
      ∧ r.pace = some (.fin (7505999378950827 / 2251799813685248))
      ∧ r.pace ≠ some (.fin (10 / 3)))
    ∧ (∃ c, Cycling.new sampleClock (40, -73) (.fin 11) (.fin 11) (.fin 100) = .ok c
      ∧ c.speed = some (.fin (8444249301319681 / 140737488355328))
      ∧ c.speed ≠ some (.fin (11 / (11 / 60)))) := by
  have hp : (JSNum.fin 10).div (.fin 3) = .fin (7505999378950827 / 2251799813685248) := by
    rw [JSNum.div_fin_pos _ _ (by norm_num),
      round64_pos (10 / 3) 1 7505999378950827 (by norm_num) (by norm_num) (by norm_num)
        (by norm_num) (by norm_num) (by norm_num)]
    norm_num
  have h1 : (JSNum.fin 11).div (.fin 60) = .fin (6605279453476727 / 36028797018963968) := by
    rw [JSNum.div_fin_pos _ _ (by norm_num),
      round64_pos (11 / 60) (-3) 6605279453476727 (by norm_num) (by norm_num) (by norm_num)
        (by norm_num) (by norm_num) (by norm_num)]
    norm_num
  have h2 : (JSNum.fin 11).div (.fin (6605279453476727 / 36028797018963968))
      = .fin (8444249301319681 / 140737488355328) := by
    rw [JSNum.div_fin_pos _ _ (by norm_num),
      round64_pos (11 / (6605279453476727 / 36028797018963968)) 5 8444249301319681
        (by norm_num) (by norm_num) (by norm_num) (by norm_num) (by norm_num) (by norm_num)]
    norm_num
  refine ⟨⟨_, running_new_eq _ _ _ _ _, ?_, ?_⟩, ⟨_, cycling_new_eq _ _ _ _ _, ?_, ?_⟩⟩
  · simp only [hp]
  · simp only [hp]
    norm_num
  · simp only [h1, h2]
  · simp only [h1, h2]
    norm_num

/-- C1, amended: for finite distance > 0 and duration > 0 the Running
constructor stores as pace the quotient duration / distance rounded to
binary64 (to nearest, ties to even, Infinity on overflow), which is the exact
quotient whenever that quotient is a binary64 value; the Cycling constructor
stores as speed distance / (duration / 60) with each of the two divisions so
rounded, the exact value whenever both exact quotients are binary64 values;
calcPace and calcSpeed, called on the record, return that stored value and
leave the record as it is. -/
theorem constructed_metric (clk : Clock) (coords : ℚ × ℚ) (distance duration : ℚ)
    (cadence elevationGain : JSNum) (hdist : 0 < distance) (hdur : 0 < duration) :
    (∃ r, Running.new clk coords (.fin distance) (.fin duration) cadence = .ok r
        ∧ r.pace = some (JSNum.round64 (duration / distance))
        ∧ r.calcPace.2 = JSNum.round64 (duration / distance) ∧ r.calcPace.1 = r
        ∧ (IsDouble (duration / distance) → r.pace = some (.fin (duration / distance))))
    ∧ (∃ c, Cycling.new clk coords (.fin distance) (.fin duration) elevationGain = .ok c
        ∧ c.speed = some ((JSNum.fin distance).div (JSNum.round64 (duration / 60)))
        ∧ c.calcSpeed.2 = (JSNum.fin distance).div (JSNum.round64 (duration / 60))
        ∧ c.calcSpeed.1 = c
        ∧ (IsDouble (duration / 60) → IsDouble (distance / (duration / 60)) →
            c.speed = some (.fin (distance / (duration / 60))))) := by
  have h60 : (0 : ℚ) < duration / 60 := by positivity
  have hq : (0 : ℚ) < duration / distance := by positivity
  have hq2 : (0 : ℚ) < distance / (duration / 60) := by positivity
  have hp := JSNum.div_fin_pos duration distance hdist
  have hs := JSNum.div_fin_pos duration 60 (by norm_num)
  refine ⟨⟨_, running_new_eq _ _ _ _ _, ?_, ?_, ?_, ?_⟩,
    ⟨_, cycling_new_eq _ _ _ _ _, ?_, ?_, ?_, ?_⟩⟩
  · simp only [hp]
  · simp only [Running.calcPace, hp]
  · simp only [Running.calcPace]
  · intro hd
    simp only [hp, round64_of_double _ hq hd]
  · simp only [hs]
  · simp only [Cycling.calcSpeed, hs]
  · simp only [Cycling.calcSpeed]
  · intro hd1 hd2
    simp only [hs, round64_of_double _ h60 hd1, JSNum.div_fin_pos _ _ h60,
      round64_of_double _ hq2 hd2]

/-- Witness of C1, amended: distance 5 and duration 30 give pace 6 and speed 10. -/
theorem constructed_metric_witness :
    (∃ r, Running.new sampleClock (40, -73) (.fin 5) (.fin 30) (.fin 150) = .ok r
      ∧ r.pace = some (.fin 6) ∧ r.calcPace.2 = .fin 6 ∧ r.calcPace.1 = r)
    ∧ (∃ c, Cycling.new sampleClock (40, -73) (.fin 5) (.fin 30) (.fin 100) = .ok c
      ∧ c.speed = some (.fin 10) ∧ c.calcSpeed.2 = .fin 10 ∧ c.calcSpeed.1 = c) := by
  obtain ⟨⟨r, hr, hpace, hcalc, hsame, -⟩, ⟨c, hc, hspeed, hcalc', hsame', -⟩⟩ :=
    constructed_metric sampleClock (40, -73) 5 30 (.fin 150) (.fin 100)
      (by norm_num) (by norm_num)
  rw [round64_six] at hpace hcalc
  rw [round64_half, JSNum.div_fin_pos 5 (1 / 2) (by norm_num), round64_ten] at hspeed hcalc'
  exact ⟨⟨r, hr, hpace, hcalc, hsame⟩, ⟨c, hc, hspeed, hcalc', hsame'⟩⟩

/-! ## Description -/

/-- C7: the month table is January .. December; at a creation date with month
index m < 12 and day d, the lookup of m in that 12-entry table succeeds and
the description of a Running (Cycling) record is 'Running' ('Cycling'), the
type with its first letter in upper case, then ' on ', the m-th month name, a
space, and d in decimal. -/
theorem description_format (clk : Clock) (coords : ℚ × ℚ)
    (distance duration cadence elevationGain : JSNum) (hm : clk.date.month < 12) :
    months = ["January", "February", "March", "April", "May", "June", "July", "August",
      "September", "October", "November", "December"]
    ∧ capitalized "running" = .ok "Running" ∧ capitalized "cycling" = .ok "Cycling"
    ∧ ∃ name, (["January", "February", "March", "April", "May", "June", "July", "August",
          "September", "October", "November", "December"] : List String).get? clk.date.month
        = some name
      ∧ (∃ r, Running.new clk coords distance duration cadence = .ok r ∧ r.type = "running"
          ∧ r.description = some ("Running" ++ " on " ++ name ++ " " ++ Nat.repr clk.date.day))
      ∧ (∃ c, Cycling.new clk coords distance duration elevationGain = .ok c ∧ c.type = "cycling"
          ∧ c.description = some ("Cycling" ++ " on " ++ name ++ " " ++ Nat.repr clk.date.day)) := by
  refine ⟨rfl, rfl, rfl, ?_⟩
  have hlen : clk.date.month < months.length := hm
  refine ⟨months.get ⟨clk.date.month, hlen⟩, List.get?_eq_get hlen, ?_, ?_⟩
  · refine ⟨_, running_new_eq _ _ _ _ _, rfl, ?_⟩
    simp only [List.get?_eq_get hlen, Option.getD_some]
    rfl
  · refine ⟨_, cycling_new_eq _ _ _ _ _, rfl, ?_⟩
    simp only [List.get?_eq_get hlen, Option.getD_some]
    rfl

/-- Witness of C7: records created on 4 November (month index 10) are
described 'Running on November 4' and 'Cycling on November 4'. -/
theorem description_format_witness :
    (∃ r, Running.new sampleClock (40, -73) (.fin 5) (.fin 30) (.fin 150) = .ok r
        ∧ r.description = some "Running on November 4")
    ∧ (∃ c, Cycling.new sampleClock (40, -73) (.fin 5) (.fin 30) (.fin 100) = .ok c
        ∧ c.description = some "Cycling on November 4") := by
  obtain ⟨-, -, -, name, hname, ⟨r, hr, -, hrd⟩, ⟨c, hc, -, hcd⟩⟩ :=
    description_format sampleClock (40, -73) (.fin 5) (.fin 30) (.fin 150) (.fin 100)
      (by decide)
  have hn : name = "November" := by
    have h : (["January", "February", "March", "April", "May", "June", "July", "August",
          "September", "October", "November", "December"] : List String).get?
          sampleClock.date.month = some "November" := rfl
    rw [h] at hname
    injection hname with hname
    exact hname.symm
  subst hn
  exact ⟨⟨r, hr, hrd.trans rfl⟩, ⟨c, hc, hcd.trans rfl⟩⟩

/-- The description of the sample record, spelled out. -/
theorem sample_description :
    (Running.new sampleClock (40, -73) (.fin 5) (.fin 30) (.fin 150)).map (·.description)
      = .ok (some "Running on November 4") := by
  rw [running_new_eq]
  rfl

/-! ## Reading a record -/

theorem get_coords_running (r : Running) :
    (JSVal.running r).get .coords = .ok (coordsVal r.coords) := rfl

theorem get_type_running (r : Running) : (JSVal.running r).get .type = .ok (.str r.type) := rfl

theorem get_id_running (r : Running) : (JSVal.running r).get .id = .ok (.str r.id) := rfl

theorem get_description_running (r : Running) :
    (JSVal.running r).get .description = .ok (optStr r.description) := rfl

theorem get_distance_running (r : Running) :
    (JSVal.running r).get .distance = .ok (.num r.distance) := rfl

theorem get_duration_running (r : Running) :
    (JSVal.running r).get .duration = .ok (.num r.duration) := rfl

theorem get_pace_running (r : Running) :
    (JSVal.running r).get .pace = .ok (optNum r.pace) := rfl

theorem get_cadence_running (r : Running) :
    (JSVal.running r).get .cadence = .ok (.num r.cadence) := rfl

theorem get_speed_of_running (r : Running) : (JSVal.running r).get .speed = .ok .undefined := rfl

theorem get_pace_of_cycling (c : Cycling) : (JSVal.cycling c).get .pace = .ok .undefined := rfl

theorem get_coords_cycling (c : Cycling) :
    (JSVal.cycling c).get .coords = .ok (coordsVal c.coords) := rfl

theorem get_type_cycling (c : Cycling) : (JSVal.cycling c).get .type = .ok (.str c.type) := rfl

theorem get_id_cycling (c : Cycling) : (JSVal.cycling c).get .id = .ok (.str c.id) := rfl

theorem get_description_cycling (c : Cycling) :
    (JSVal.cycling c).get .description = .ok (optStr c.description) := rfl

theorem get_distance_cycling (c : Cycling) :
    (JSVal.cycling c).get .distance = .ok (.num c.distance) := rfl

theorem get_duration_cycling (c : Cycling) :
    (JSVal.cycling c).get .duration = .ok (.num c.duration) := rfl

theorem get_speed_cycling (c : Cycling) :
    (JSVal.cycling c).get .speed = .ok (optNum c.speed) := rfl

theorem get_elevationGain_cycling (c : Cycling) :
    (JSVal.cycling c).get .elevationGain = .ok (.num c.elevationGain) := rfl

/-! ## The two render methods on a record -/

theorem renderWorkoutMarker_running (r : Running) (s : App) (hmap : s.map = true) :
    s._renderWorkoutMarker (.running r) = .ok { s with commands :=
      s.commands ++ [.placeMarker (coordsVal r.coords) (.str r.type) (optStr r.description)] } := by
  simp only [App._renderWorkoutMarker, get_coords_running, get_type_running,
    get_description_running, hmap]
  rfl

theorem renderWorkoutMarker_cycling (c : Cycling) (s : App) (hmap : s.map = true) :
    s._renderWorkoutMarker (.cycling c) = .ok { s with commands :=
      s.commands ++ [.placeMarker (coordsVal c.coords) (.str c.type) (optStr c.description)] } := by
  simp only [App._renderWorkoutMarker, get_coords_cycling, get_type_cycling,
    get_description_cycling, hmap]
  rfl

theorem renderWorkout_running (r : Running) (s : App) (ht : r.type = "running") :
    s._renderWorkout (.running r) = .ok { s with commands :=
      s.commands ++ [.listItem (.str r.id) (.str r.type) (optStr r.description)
        (.num r.distance) (.num r.duration) (optNum r.pace) (.num r.cadence)] } := by
  simp only [App._renderWorkout, get_type_running, get_id_running, get_description_running,
    get_distance_running, get_duration_running, get_pace_running, get_cadence_running, ht]
  rfl

theorem renderWorkout_cycling (c : Cycling) (s : App) (ht : c.type = "cycling") :
    s._renderWorkout (.cycling c) = .ok { s with commands :=
      s.commands ++ [.listItem (.str c.id) (.str c.type) (optStr c.description)
        (.num c.distance) (.num c.duration) (optNum c.speed) (.num c.elevationGain)] } := by
  simp only [App._renderWorkout, get_type_cycling, get_id_cycling, get_description_cycling,
    get_distance_cycling, get_duration_cycling, get_speed_cycling, get_elevationGain_cycling, ht]
  rfl

/-! ## Submitting the form -/

theorem finishNewWorkout_running (r : Running) (s : App) (S : List JSVal)
    (hmap : s.map = true) (hS : s.workouts = .arr S) (ht : r.type = "running") :
    s.finishNewWorkout (.running r) = .returned
      { mapEvent := s.mapEvent, map := s.map, workouts := .arr (S ++ [.running r]),
        storage := some (JSON.stringify (.arr (S ++ [.running r]))),
        form := { s.form with display := "none", hidden := true, distance := .empty,
                              duration := .empty, cadence := .empty, elevation := .empty },
        commands := s.commands ++
          [.placeMarker (coordsVal r.coords) (.str r.type) (optStr r.description),
           .listItem (.str r.id) (.str r.type) (optStr r.description)
             (.num r.distance) (.num r.duration) (optNum r.pace) (.num r.cadence)] } := by
  simp only [App.finishNewWorkout, renderWorkoutMarker_running r s hmap,
    renderWorkout_running r _ ht, hS, App._hideForm, App._setLocalStorage,
    List.append_assoc, List.singleton_append]

theorem finishNewWorkout_cycling (c : Cycling) (s : App) (S : List JSVal)
    (hmap : s.map = true) (hS : s.workouts = .arr S) (ht : c.type = "cycling") :
    s.finishNewWorkout (.cycling c) = .returned
      { mapEvent := s.mapEvent, map := s.map, workouts := .arr (S ++ [.cycling c]),
        storage := some (JSON.stringify (.arr (S ++ [.cycling c]))),
        form := { s.form with display := "none", hidden := true, distance := .empty,
                              duration := .empty, cadence := .empty, elevation := .empty },
        commands := s.commands ++
          [.placeMarker (coordsVal c.coords) (.str c.type) (optStr c.description),
           .listItem (.str c.id) (.str c.type) (optStr c.description)
             (.num c.distance) (.num c.duration) (optNum c.speed) (.num c.elevationGain)] } := by
  simp only [App.finishNewWorkout, renderWorkoutMarker_cycling c s hmap,
    renderWorkout_cycling c _ ht, hS, App._hideForm, App._setLocalStorage,
    List.append_assoc, List.singleton_append]

theorem finishNewWorkout_ne_alerted (w : JSVal) (s : App) (msg : String) (s' : App) :
    s.finishNewWorkout w ≠ .alerted msg s' := by
  unfold App.finishNewWorkout
  intro h
  split at h
  · exact Completion.noConfusion h
  · split at h
    · exact Completion.noConfusion h
    · split at h <;> exact Completion.noConfusion h

theorem newWorkout_running (clk : Clock) (s : App) (lat lng : ℚ)
    (hev : s.mapEvent = some (lat, lng))
    (htype : s.form.type = "running")
    (hcheck : checkInputs [s.form.distance.toNumber, s.form.duration.toNumber,
      s.form.cadence.toNumber] = true) :
    ∃ r, Running.new clk (lat, lng) s.form.distance.toNumber s.form.duration.toNumber
          s.form.cadence.toNumber = .ok r
      ∧ r.type = "running"
      ∧ s._newWorkout clk = s.finishNewWorkout (.running r) := by
  refine ⟨_, running_new_eq _ _ _ _ _, rfl, ?_⟩
  simp only [App._newWorkout, hev, htype, hcheck, running_new_eq]
  rfl

theorem newWorkout_cycling (clk : Clock) (s : App) (lat lng : ℚ)
    (hev : s.mapEvent = some (lat, lng))
    (htype : s.form.type = "cycling")
    (hcheck : checkInputs [s.form.distance.toNumber, s.form.duration.toNumber] = true) :
    ∃ c, Cycling.new clk (lat, lng) s.form.distance.toNumber s.form.duration.toNumber
          s.form.elevation.toNumber = .ok c
      ∧ c.type = "cycling"
      ∧ s._newWorkout clk = s.finishNewWorkout (.cycling c) := by
  refine ⟨_, cycling_new_eq _ _ _ _ _, rfl, ?_⟩
  have hne : ¬ ("cycling" = "running") := by decide
  simp only [App._newWorkout, hev, htype, hcheck, cycling_new_eq, hne]
  rfl

/-- C4: an accepted submission (type running or cycling, `checkInputs` passed)
made with pending coordinates (lat, lng), the map loaded and the sequence S in
memory returns normally; the sequence is then S with one record appended, the
record built by the constructor from (lat, lng) and the submitted fields with
its metric and description; exactly two commands are added, one marker and one
list item, both from the values of that record; the slot holds the
serialization of the whole new sequence; the form is hidden and emptied. -/
theorem newWorkout_accepted (clk : Clock) (s : App) (lat lng : ℚ) (S : List JSVal)
    (hev : s.mapEvent = some (lat, lng)) (hmap : s.map = true) (hS : s.workouts = .arr S) :
    (s.form.type = "running" →
      checkInputs [s.form.distance.toNumber, s.form.duration.toNumber,
        s.form.cadence.toNumber] = true →
      ∃ r, Running.new clk (lat, lng) s.form.distance.toNumber s.form.duration.toNumber
            s.form.cadence.toNumber = .ok r
        ∧ r.coords = (lat, lng) ∧ r.distance = s.form.distance.toNumber
        ∧ r.duration = s.form.duration.toNumber
        ∧ r.pace = some (s.form.duration.toNumber.div s.form.distance.toNumber)
        ∧ (∃ d, Workout._setDescription r.type clk.date = .ok d ∧ r.description = some d)
        ∧ s._newWorkout clk = .returned
            { mapEvent := s.mapEvent, map := s.map, workouts := .arr (S ++ [.running r]),
              storage := some (JSON.stringify (.arr (S ++ [.running r]))),
              form := { s.form with display := "none", hidden := true, distance := .empty,
                                    duration := .empty, cadence := .empty, elevation := .empty },
              commands := s.commands ++
                [.placeMarker (coordsVal r.coords) (.str r.type) (optStr r.description),
                 .listItem (.str r.id) (.str r.type) (optStr r.description)
                   (.num r.distance) (.num r.duration) (optNum r.pace) (.num r.cadence)] })
    ∧ (s.form.type = "cycling" →
      checkInputs [s.form.distance.toNumber, s.form.duration.toNumber] = true →
      ∃ c, Cycling.new clk (lat, lng) s.form.distance.toNumber s.form.duration.toNumber
            s.form.elevation.toNumber = .ok c
        ∧ c.coords = (lat, lng) ∧ c.distance = s.form.distance.toNumber
        ∧ c.duration = s.form.duration.toNumber
        ∧ c.speed = some (s.form.distance.toNumber.div (s.form.duration.toNumber.div (.fin 60)))
        ∧ (∃ d, Workout._setDescription c.type clk.date = .ok d ∧ c.description = some d)
        ∧ s._newWorkout clk = .returned
            { mapEvent := s.mapEvent, map := s.map, workouts := .arr (S ++ [.cycling c]),
              storage := some (JSON.stringify (.arr (S ++ [.cycling c]))),
              form := { s.form with display := "none", hidden := true, distance := .empty,
                                    duration := .empty, cadence := .empty, elevation := .empty },
              commands := s.commands ++
                [.placeMarker (coordsVal c.coords) (.str c.type) (optStr c.description),
                 .listItem (.str c.id) (.str c.type) (optStr c.description)
                   (.num c.distance) (.num c.duration) (optNum c.speed)
                   (.num c.elevationGain)] }) := by
  constructor
  · intro htype hcheck
    obtain ⟨r, hr, ht, hrun⟩ := newWorkout_running clk s lat lng hev htype hcheck
    refine ⟨r, hr, ?_, ?_, ?_, ?_, ?_, ?_⟩
    · rw [running_new_eq] at hr; cases hr; rfl
    · rw [running_new_eq] at hr; cases hr; rfl
    · rw [running_new_eq] at hr; cases hr; rfl
    · rw [running_new_eq] at hr; cases hr; rfl
    · rw [running_new_eq] at hr; cases hr
      exact ⟨_, by simp only [Workout._setDescription, capitalized_running]; rfl, rfl⟩
    · rw [hrun]; exact finishNewWorkout_running r s S hmap hS ht
  · intro htype hcheck
    obtain ⟨c, hc, ht, hrun⟩ := newWorkout_cycling clk s lat lng hev htype hcheck
    refine ⟨c, hc, ?_, ?_, ?_, ?_, ?_, ?_⟩
    · rw [cycling_new_eq] at hc; cases hc; rfl
    · rw [cycling_new_eq] at hc; cases hc; rfl
    · rw [cycling_new_eq] at hc; cases hc; rfl
    · rw [cycling_new_eq] at hc; cases hc; rfl
    · rw [cycling_new_eq] at hc; cases hc
      exact ⟨_, by simp only [Workout._setDescription, capitalized_cycling]; rfl, rfl⟩
    · rw [hrun]; exact finishNewWorkout_cycling c s S hmap hS ht

theorem checkInputs_eq (inputs : List JSNum) :
    checkInputs inputs = inputs.all fun inp => inp.gt (.fin 0) := by
  simp [checkInputs, isFiniteProperty, JSVal.truthy]

/-- Witness of C4: running, distance 5, duration 30, cadence 150 at (40, -73)
on an empty sequence gives one record with pace 6. -/
theorem newWorkout_accepted_witness :
    ∃ r, Running.new sampleClock (40, -73) (.fin 5) (.fin 30) (.fin 150) = .ok r
      ∧ r.pace = some (.fin 6)
      ∧ r.description = some "Running on November 4"
      ∧ (awaiting [] none (openForm "running" (.fin 5) (.fin 30) (.fin 150) (.fin 0)))._newWorkout
          sampleClock = .returned
          { mapEvent := some (40, -73), map := true, workouts := .arr [.running r],
            storage := some (JSON.stringify (.arr [.running r])),
            form := { hidden := true, display := "none", type := "running", distance := .empty,
                      duration := .empty, cadence := .empty, elevation := .empty },
            commands :=
              [.placeMarker (coordsVal (40, -73)) (.str "running") (.str "Running on November 4"),
               .listItem (.str "12345") (.str "running") (.str "Running on November 4")
                 (.num (.fin 5)) (.num (.fin 30)) (.num (.fin 6)) (.num (.fin 150))] } := by
  obtain ⟨r, hr, -, -, -, -, -, hrun⟩ :=
    (newWorkout_accepted sampleClock
      (awaiting [] none (openForm "running" (.fin 5) (.fin 30) (.fin 150) (.fin 0)))
      40 (-73) [] rfl rfl rfl).1 rfl
      (by simp [checkInputs_eq, awaiting, openForm, FieldText.toNumber, JSNum.gt])
  have hr' := hr
  rw [running_new_eq] at hr'
  cases hr'
  have h6 : (JSNum.fin 30).div (.fin 5) = .fin 6 := by
    rw [JSNum.div_fin_pos _ _ (by norm_num), round64_six]
  refine ⟨_, hr, ?_, rfl, ?_⟩
  · exact congrArg some h6
  · rw [hrun]
    simp only [awaiting, openForm, FieldText.toNumber, h6, optNum, optStr, List.nil_append]
    rfl

/-- C3: when `_newWorkout` leaves through the validation alert, the state it
leaves is the state it was given: same workouts, same slot, same pending
coordinates, same form (neither hidden nor emptied), and no command added. -/
theorem newWorkout_rejected_unchanged (clk : Clock) (s : App) (msg : String) (s' : App)
    (h : s._newWorkout clk = .alerted msg s') :
    s' = s ∧ msg = alertText ∧ s'.workouts = s.workouts ∧ s'.storage = s.storage
      ∧ s'.mapEvent = s.mapEvent ∧ s'.form = s.form ∧ s'.commands = s.commands := by
  have key : s' = s ∧ msg = alertText := by
    unfold App._newWorkout at h
    simp only at h
    split at h
    · exact Completion.noConfusion h
    · split at h
      · split at h
        · cases h; exact ⟨rfl, rfl⟩
        · split at h
          · exact Completion.noConfusion h
          · exact absurd h (finishNewWorkout_ne_alerted _ _ _ _)
      · split at h
        · split at h
          · cases h; exact ⟨rfl, rfl⟩
          · split at h
            · exact Completion.noConfusion h
            · exact absurd h (finishNewWorkout_ne_alerted _ _ _ _)
        · exact absurd h (finishNewWorkout_ne_alerted _ _ _ _)
  obtain ⟨rfl, rfl⟩ := key
  exact ⟨rfl, rfl, rfl, rfl, rfl, rfl, rfl⟩

/-- Witness of C3: cycling with distance 0, duration 20 and elevation gain 100
is rejected, and the state is left as it was. -/
theorem newWorkout_rejected_unchanged_witness :
    ∃ s', (awaiting [] none (openForm "cycling" (.fin 0) (.fin 20) (.fin 0) (.fin 100)))._newWorkout
          sampleClock = .alerted alertText s'
      ∧ s' = awaiting [] none (openForm "cycling" (.fin 0) (.fin 20) (.fin 0) (.fin 100))
      ∧ s'.commands = [] :=
  have h : (awaiting [] none (openForm "cycling" (.fin 0) (.fin 20) (.fin 0) (.fin 100)))._newWorkout
        sampleClock
      = .alerted alertText
          (awaiting [] none (openForm "cycling" (.fin 0) (.fin 20) (.fin 0) (.fin 100))) := by
    simp [App._newWorkout, awaiting, openForm, checkInputs_eq, FieldText.toNumber, JSNum.gt]
  ⟨_, h, (newWorkout_rejected_unchanged _ _ _ _ h).1, (newWorkout_rejected_unchanged _ _ _ _ h).2.2.2.2.2.2⟩

/-- C2, the code at a failing input: a running submission whose distance reads
`Infinity` (duration 30, cadence 150) passes `checkInputs` and a record with
that distance is created and appended; so does a cycling submission whose
elevation gain reads `NaN`. -/
theorem newWorkout_accepts_non_finite :
    checkInputs [.posInf, .fin 30, .fin 150] = true
    ∧ (∃ r s', (awaiting [] none (openForm "running" .posInf (.fin 30) (.fin 150)
          (.fin 0)))._newWorkout sampleClock = .returned s'
        ∧ s'.workouts = .arr [.running r] ∧ r.distance = .posInf
        ∧ r.distance.isFinite = false)
    ∧ (∃ c s', (awaiting [] none (openForm "cycling" (.fin 5) (.fin 30) (.fin 0)
          .nan))._newWorkout sampleClock = .returned s'
        ∧ s'.workouts = .arr [.cycling c] ∧ c.elevationGain = .nan
        ∧ c.elevationGain.isFinite = false) := by
  refine ⟨by simp [checkInputs_eq, JSNum.gt], ?_, ?_⟩
  · obtain ⟨r, hr, ht, hrun⟩ := newWorkout_running sampleClock
      (awaiting [] none (openForm "running" .posInf (.fin 30) (.fin 150) (.fin 0))) 40 (-73)
      rfl rfl (by simp [checkInputs_eq, awaiting, openForm, FieldText.toNumber, JSNum.gt])
    rw [finishNewWorkout_running r _ [] rfl rfl ht] at hrun
    rw [running_new_eq] at hr
    cases hr
    exact ⟨_, _, hrun, rfl, rfl, rfl⟩
  · obtain ⟨c, hc, ht, hrun⟩ := newWorkout_cycling sampleClock
      (awaiting [] none (openForm "cycling" (.fin 5) (.fin 30) (.fin 0) .nan)) 40 (-73)
      rfl rfl (by simp [checkInputs_eq, awaiting, openForm, FieldText.toNumber, JSNum.gt])
    rw [finishNewWorkout_cycling c _ [] rfl rfl ht] at hrun
    rw [cycling_new_eq] at hc
    cases hc
    exact ⟨_, _, hrun, rfl, rfl, rfl⟩

/-! ## Storing and reading back -/

theorem elemsToVal_elemsToJSON (S : List JSVal) :
    elemsToVal (elemsToJSON S) = S.map restored := by
  induction S with
  | nil => rfl
  | cons w S ih => simp only [elemsToJSON, elemsToVal, ih, List.map_cons, restored]

theorem stringify_arr (S : List JSVal) :
    JSON.stringify (.arr S) = .json (.arr (elemsToJSON S)) := rfl

theorem parse_stringify_arr (S : List JSVal) :
    JSON.parse (some (JSON.stringify (.arr S))) = .ok (.arr (S.map restored)) := by
  simp only [stringify_arr, JSON.parse, JSON.toVal, elemsToVal_elemsToJSON]

/-- Rendering a plain object never throws and adds one list item. -/
theorem renderWorkout_obj (ps : List (String × JSVal)) (s : App) :
    ∃ c, c.isListItem = true
      ∧ s._renderWorkout (.obj ps) = .ok { s with commands := s.commands ++ [c] } := by
  by_cases h : (lookupProp Key.type.name ps).strictEqStr "running" = true
  · exact ⟨.listItem _ _ _ _ _ _ _, rfl, by
      simp only [App._renderWorkout, JSVal.get, bind, Except.bind, pure, Except.pure, h]; rfl⟩
  · exact ⟨.listItem _ _ _ _ _ _ _, rfl, by
      simp only [App._renderWorkout, JSVal.get, bind, Except.bind, pure, Except.pure, h]; rfl⟩

/-- The rendering loop over plain objects returns, adds one list item per
element and changes nothing else. -/
theorem renderAll_objs (xs : List JSVal) (hxs : ∀ x ∈ xs, ∃ ps, x = .obj ps) (s : App) :
    ∃ cs, cs.length = xs.length ∧ (∀ c ∈ cs, c.isListItem = true)
      ∧ App.renderAll xs s = .returned { s with commands := s.commands ++ cs } := by
  induction xs generalizing s with
  | nil => exact ⟨[], rfl, by simp, by simp [App.renderAll]⟩
  | cons x xs ih =>
    obtain ⟨ps, rfl⟩ := hxs x (List.mem_cons_self _ _)
    obtain ⟨c, hitem, hc⟩ := renderWorkout_obj ps s
    obtain ⟨cs, hlen, hitems, hcs⟩ := ih (fun y hy => hxs y (List.mem_cons_of_mem _ hy))
      { s with commands := s.commands ++ [c] }
    refine ⟨c :: cs, by simp [hlen], ?_, ?_⟩
    · intro c' hc'
      rcases List.mem_cons.1 hc' with rfl | hc'
      · exact hitem
      · exact hitems c' hc'
    · simp only [App.renderAll, hc, hcs, List.append_assoc, List.singleton_append]

theorem restored_running (r : Running) (p : JSNum) (d : String)
    (hp : r.pace = some p) (hd : r.description = some d) :
    restored (.running r) = .obj
      [("date", .str r.date.iso), ("id", .str r.id),
       ("distance", (numToJSON r.distance).toVal), ("duration", (numToJSON r.duration).toVal),
       ("coords", coordsVal r.coords), ("type", .str r.type),
       ("cadence", (numToJSON r.cadence).toVal), ("pace", (numToJSON p).toVal),
       ("description", .str d)] := by
  simp only [restored, JSVal.toJSON, Running.toJSON, hp, hd, Option.map_some', optProp,
    Option.getD_some, List.cons_append, List.nil_append, JSON.toVal, propsToVal, elemsToVal,
    coordsVal]

theorem restored_cycling (c : Cycling) (p : JSNum) (d : String)
    (hp : c.speed = some p) (hd : c.description = some d) :
    restored (.cycling c) = .obj
      [("date", .str c.date.iso), ("id", .str c.id),
       ("distance", (numToJSON c.distance).toVal), ("duration", (numToJSON c.duration).toVal),
       ("coords", coordsVal c.coords), ("type", .str c.type),
       ("elevationGain", (numToJSON c.elevationGain).toVal), ("speed", (numToJSON p).toVal),
       ("description", .str d)] := by
  simp only [restored, JSVal.toJSON, Cycling.toJSON, hp, hd, Option.map_some', optProp,
    Option.getD_some, List.cons_append, List.nil_append, JSON.toVal, propsToVal, elemsToVal,
    coordsVal]

theorem numToJSON_fin (q : ℚ) : (numToJSON (.fin q)).toVal = .num (.fin q) := rfl

/-- What is read back for a built record of finite metric: a plain object
with the same properties apart from `date`, whose metric agrees with its
distance and duration. -/
theorem restored_built (w : JSVal) (hw : Built w) (hfin : FiniteMetric w) :
    (∃ ps, restored w = .obj ps)
    ∧ (∀ k : Key, k ≠ .date → (restored w).get k = w.get k)
    ∧ MetricConsistent (restored w) := by
  obtain ⟨x, hx⟩ := hfin
  rcases hw with ⟨clk, coords, d, t, c, r, hd, ht, -, hr, rfl⟩ | ⟨clk, coords, d, t, e, c, hd, ht, hc, rfl⟩
  · rw [running_new_eq] at hr
    cases hr
    have hp : (JSNum.fin t).div (.fin d) = .fin x := by
      rcases hx with hx | hx
      · have h := hx
        rw [get_pace_running] at h
        injection h with h
        injection h with h
      · rw [get_speed_of_running] at hx
        injection hx with hx
        exact JSVal.noConfusion hx
    rw [restored_running _ (.fin x) _ (congrArg some hp) rfl]
    refine ⟨⟨_, rfl⟩, ?_, ?_⟩
    · intro k hk
      cases k <;> first
        | exact absurd rfl hk
        | simp [JSVal.get, Key.name, Running.props, lookupProp, numToJSON_fin, optNum, optStr, hp]
    · refine ⟨Or.inl rfl, fun _ => ⟨.fin d, .fin t, rfl, rfl, ?_⟩, fun h => ?_⟩
      · rw [hp]; rfl
      · simp [JSVal.get, Key.name, lookupProp] at h
  · rw [cycling_new_eq] at hc
    cases hc
    have hp : (JSNum.fin d).div ((JSNum.fin t).div (.fin 60)) = .fin x := by
      rcases hx with hx | hx
      · rw [get_pace_of_cycling] at hx
        injection hx with hx
        exact JSVal.noConfusion hx
      · have h := hx
        rw [get_speed_cycling] at h
        injection h with h
        injection h with h
    rw [restored_cycling _ (.fin x) _ (congrArg some hp) rfl]
    refine ⟨⟨_, rfl⟩, ?_, ?_⟩
    · intro k hk
      cases k <;> first
        | exact absurd rfl hk
        | simp [JSVal.get, Key.name, Cycling.props, lookupProp, numToJSON_fin, optNum, optStr, hp]
    · refine ⟨Or.inr rfl, fun h => ?_, fun _ => ⟨.fin d, .fin t, rfl, rfl, ?_⟩⟩
      · simp [JSVal.get, Key.name, lookupProp] at h
      · rw [hp]; rfl

theorem getLocalStorage_of_stringify (t : App) (S : List JSVal)
    (ht : t.storage = some (JSON.stringify (.arr S))) (hS : ∀ w ∈ S, ∃ ps, restored w = .obj ps) :
    ∃ cs, cs.length = S.length ∧ (∀ c ∈ cs, c.isListItem = true)
      ∧ t._getLocalStorage = .returned
          { t with workouts := .arr (S.map restored), commands := t.commands ++ cs } := by
  have hobj : ∀ x ∈ S.map restored, ∃ ps, x = .obj ps := by
    intro x hx
    obtain ⟨w, hw, rfl⟩ := List.mem_map.1 hx
    exact hS w hw
  obtain ⟨cs, hlen, hitems, hcs⟩ := renderAll_objs (S.map restored) hobj
    { t with workouts := .arr (S.map restored) }
  refine ⟨cs, by simpa using hlen, hitems, ?_⟩
  have hp : JSON.parse t.storage = .ok (.arr (S.map restored)) := by
    rw [ht, parse_stringify_arr]
  unfold App._getLocalStorage
  rw [hp]
  simp only [JSVal.truthy, Bool.not_true, Bool.false_eq_true, if_false]
  exact hcs

theorem restored_instance (w : JSVal) (hw : IsInstance w) : ∃ ps, restored w = .obj ps := by
  rcases hw with ⟨r, rfl⟩ | ⟨c, rfl⟩
  · exact ⟨_, rfl⟩
  · exact ⟨_, rfl⟩

/-- C5, as stated, fails: a run of 2^-1000 km in 2^1000 min, built from finite
positive values, has pace `Infinity`; it is written `null` and the record read
back has pace `null`. -/
theorem roundtrip_loses_overflowed_pace :
    ∃ r, Running.new sampleClock (40, -73) (.fin (1 / 2 ^ 1000)) (.fin (2 ^ 1000)) (.fin 150)
        = .ok r
      ∧ Built (.running r)
      ∧ (JSVal.running r).get .pace = .ok (.num .posInf)
      ∧ ∃ t' w', (App.fresh (awaiting [.running r] none closedForm)._setLocalStorage.storage
            closedForm)._getLocalStorage = .returned t'
          ∧ t'.workouts = .arr [w'] ∧ w'.get .pace = .ok .null
          ∧ w'.get .pace ≠ (JSVal.running r).get .pace := by
  have hinf : (JSNum.fin (2 ^ 1000)).div (.fin (1 / 2 ^ 1000)) = .posInf := by
    rw [JSNum.div_fin_pos _ _ (by positivity),
      round64_pos (2 ^ 1000 / (1 / 2 ^ 1000)) 2000 (2 ^ 52) (by positivity) (by norm_num)
        (by norm_num) (by norm_num) (by norm_num) (by norm_num)]
    norm_num
  have hnew := running_new_eq sampleClock (40, -73) (.fin (1 / 2 ^ 1000)) (.fin (2 ^ 1000))
    (.fin 150)
  rw [hinf] at hnew
  obtain ⟨r, hr, hp, d, hd⟩ : ∃ r,
      Running.new sampleClock (40, -73) (.fin (1 / 2 ^ 1000)) (.fin (2 ^ 1000)) (.fin 150) = .ok r
      ∧ r.pace = some .posInf ∧ ∃ d, r.description = some d := ⟨_, hnew, rfl, _, rfl⟩
  have hget : (JSVal.running r).get .pace = .ok (.num .posInf) := by
    rw [get_pace_running, hp]; rfl
  refine ⟨r, hr, ?_, hget, ?_⟩
  · exact Or.inl ⟨sampleClock, (40, -73), 1 / 2 ^ 1000, 2 ^ 1000, 150, r, by positivity,
      by positivity, by norm_num, hr, rfl⟩
  · obtain ⟨cs, -, -, hrun⟩ := getLocalStorage_of_stringify
      (App.fresh (awaiting [.running r] none closedForm)._setLocalStorage.storage closedForm)
      [.running r] rfl (fun w hw => restored_instance w (by
        rw [List.mem_singleton.1 hw]; exact Or.inl ⟨_, rfl⟩))
    have hnull : (restored (.running r)).get .pace = .ok .null := by
      rw [restored_running r .posInf d hp hd]
      rfl
    refine ⟨_, restored (.running r), hrun, rfl, hnull, ?_⟩
    rw [hnull, hget]
    intro h
    injection h with h
    exact JSVal.noConfusion h

/-- C5, amended: a sequence S of records built by the constructors from finite
positive distance and duration (and cadence, or a finite elevation gain) and
whose metric is finite, stored with `_setLocalStorage` and read back with
`_getLocalStorage`, comes back as a sequence of the same length and order in
which every record reads the same id, type, distance, duration, coords,
description, cadence, elevationGain, pace and speed (every property name of a
workout other than `date`), and in which the metric is the one recomputed from
the restored distance and duration. -/
theorem storage_roundtrip (s t : App) (S : List JSVal) (hS : s.workouts = .arr S)
    (hB : ∀ w ∈ S, Built w) (hfin : ∀ w ∈ S, FiniteMetric w)
    (ht : t.storage = s._setLocalStorage.storage) :
    ∃ t' S', t._getLocalStorage = .returned t' ∧ t'.workouts = .arr S'
      ∧ S'.length = S.length
      ∧ List.Forall₂
          (fun w w' => (∀ k : Key, k ≠ .date → w'.get k = w.get k) ∧ MetricConsistent w')
          S S' := by
  have ht' : t.storage = some (JSON.stringify (.arr S)) := by
    rw [ht]; simp only [App._setLocalStorage, hS]
  obtain ⟨cs, -, -, hrun⟩ := getLocalStorage_of_stringify t S ht'
    (fun w hw => (restored_built w (hB w hw) (hfin w hw)).1)
  refine ⟨_, S.map restored, hrun, rfl, by simp, ?_⟩
  rw [List.forall₂_map_right_iff, List.forall₂_same]
  intro w hw
  exact (restored_built w (hB w hw) (hfin w hw)).2

theorem sampleRunning_new :
    Running.new sampleClock (40, -73) (.fin 5) (.fin 30) (.fin 150) = .ok sampleRunning := by
  rw [running_new_eq, JSNum.div_fin_pos _ _ (by norm_num), round64_six]
  rfl

theorem sampleCycling_new :
    Cycling.new sampleClock (40, -73) (.fin 5) (.fin 30) (.fin 100) = .ok sampleCycling := by
  rw [cycling_new_eq, JSNum.div_fin_pos 30 60 (by norm_num), round64_half,
    JSNum.div_fin_pos 5 (1 / 2) (by norm_num), round64_ten]
  rfl

theorem built_sampleRunning : Built (.running sampleRunning) :=
  Or.inl ⟨sampleClock, (40, -73), 5, 30, 150, sampleRunning, by norm_num, by norm_num,
    by norm_num, sampleRunning_new, rfl⟩

theorem built_sampleCycling : Built (.cycling sampleCycling) :=
  Or.inr ⟨sampleClock, (40, -73), 5, 30, 100, sampleCycling, by norm_num, by norm_num,
    sampleCycling_new, rfl⟩

/-- Witness of C5, amended: a run of pace 6 and a ride of speed 10 are stored
by one session and read back by the next. -/
theorem storage_roundtrip_witness :
    ∃ t' S',
      (awaiting [] (awaiting [.running sampleRunning, .cycling sampleCycling] none
          (openForm "running" (.fin 0) (.fin 0) (.fin 0) (.fin 0)))._setLocalStorage.storage
        (openForm "running" (.fin 0) (.fin 0) (.fin 0) (.fin 0)))._getLocalStorage = .returned t'
      ∧ t'.workouts = .arr S'
      ∧ S'.length = [JSVal.running sampleRunning, JSVal.cycling sampleCycling].length
      ∧ List.Forall₂
          (fun (w w' : JSVal) =>
            (∀ k : Key, k ≠ .date → w'.get k = w.get k) ∧ MetricConsistent w')
          [.running sampleRunning, .cycling sampleCycling] S' :=
  storage_roundtrip
    (awaiting [.running sampleRunning, .cycling sampleCycling] none
      (openForm "running" (.fin 0) (.fin 0) (.fin 0) (.fin 0)))
    _ [.running sampleRunning, .cycling sampleCycling] rfl
    (by
      intro w hw
      simp only [List.mem_cons, List.mem_singleton, List.not_mem_nil, or_false] at hw
      rcases hw with rfl | rfl
      · exact built_sampleRunning
      · exact built_sampleCycling)
    (by
      intro w hw
      simp only [List.mem_cons, List.mem_singleton, List.not_mem_nil, or_false] at hw
      rcases hw with rfl | rfl
      · exact ⟨6, Or.inl rfl⟩
      · exact ⟨10, Or.inr rfl⟩)
    rfl

/-! ## The id of a record -/

theorem digitVal_digitChar (m : Nat) (h : m < 10) : digitVal (Nat.digitChar m) = m := by
  interval_cases m <;> rfl

theorem decode_append (a b : List Char) :
    decode (a ++ b) = decode a * 10 ^ b.length + decode b := by
  induction b using List.reverseRecOn with
  | nil => simp [decode]
  | append_singleton b c ih =>
    rw [← List.append_assoc]
    simp only [decode, List.foldl_append, List.foldl_cons, List.foldl_nil, List.length_append,
      List.length_singleton] at ih ⊢
    rw [ih, pow_succ]
    ring

theorem decode_lt (l : List Char) (h : ∀ c ∈ l, digitVal c < 10) : decode l < 10 ^ l.length := by
  induction l using List.reverseRecOn with
  | nil => simp [decode]
  | append_singleton b c ih =>
    have hb := ih (fun x hx => h x (List.mem_append_left _ hx))
    have hc := h c (by simp)
    rw [decode_append]
    simp only [List.length_append, List.length_singleton, pow_succ, pow_zero, one_mul]
    have : decode [c] = digitVal c := by simp [decode]
    rw [this]
    omega

theorem toDigitsCore_spec (f : Nat) : ∀ (n : Nat) (ds : List Char), n < f →
    ∃ l, Nat.toDigitsCore 10 f n ds = l ++ ds ∧ decode l = n ∧ ∀ c ∈ l, digitVal c < 10 := by
  induction f with
  | zero => intro n ds h; omega
  | succ f ih =>
    intro n ds h
    have hd : digitVal (Nat.digitChar (n % 10)) = n % 10 :=
      digitVal_digitChar _ (Nat.mod_lt _ (by norm_num))
    simp only [Nat.toDigitsCore]
    by_cases h0 : n / 10 = 0
    · simp only [h0, if_true]
      refine ⟨[Nat.digitChar (n % 10)], rfl, ?_, ?_⟩
      · simp only [decode, List.foldl_cons, List.foldl_nil, hd]; omega
      · intro c hc
        simp only [List.mem_singleton] at hc
        subst hc; rw [hd]; exact Nat.mod_lt _ (by norm_num)
    · simp only [h0, if_false]
      obtain ⟨l, hl, hdec, hdig⟩ := ih (n / 10) (Nat.digitChar (n % 10) :: ds) (by omega)
      refine ⟨l ++ [Nat.digitChar (n % 10)], by simp [hl], ?_, ?_⟩
      · rw [decode_append, hdec]
        simp only [decode, List.foldl_cons, List.foldl_nil, hd, List.length_singleton]
        omega
      · intro c hc
        rcases List.mem_append.1 hc with hc | hc
        · exact hdig c hc
        · simp only [List.mem_singleton] at hc
          subst hc; rw [hd]; exact Nat.mod_lt _ (by norm_num)

theorem toString_toList_spec (n : Nat) :
    decode (toString n).toList = n ∧ ∀ c ∈ (toString n).toList, digitVal c < 10 := by
  obtain ⟨l, hl, hdec, hdig⟩ := toDigitsCore_spec (n + 1) n [] (by omega)
  have : (toString n).toList = l := by
    show (Nat.toDigits 10 n).asString.toList = l
    simp [Nat.toDigits, hl, List.asString]
  rw [this]
  exact ⟨hdec, hdig⟩

theorem decode_drop (l : List Char) (h : ∀ c ∈ l, digitVal c < 10) (k : Nat) :
    decode (l.drop (l.length - k)) = decode l % 10 ^ k := by
  have hsplit := List.take_append_drop (l.length - k) l
  have hlt := decode_lt (l.drop (l.length - k))
    (fun c hc => h c (List.mem_of_mem_drop hc))
  have hlen : (l.drop (l.length - k)).length = min k l.length := by
    simp only [List.length_drop]; omega
  by_cases hk : l.length ≤ k
  · have h0 : l.length - k = 0 := by omega
    rw [h0, List.drop_zero]
    have := decode_lt l h
    have hpow : 10 ^ l.length ≤ 10 ^ k := Nat.pow_le_pow_right (by norm_num) hk
    rw [Nat.mod_eq_of_lt (by omega)]
  · have hlen' : (l.drop (l.length - k)).length = k := by rw [hlen]; omega
    conv_rhs => rw [← hsplit, decode_append, hlen']
    rw [hlen'] at hlt
    rw [Nat.mul_add_mod_of_lt hlt]

theorem decode_id (n : Nat) : decode (Workout.id n).toList = n % 10 ^ 5 := by
  obtain ⟨hdec, hdig⟩ := toString_toList_spec n
  show decode ((toString n).toList.drop ((toString n).toList.length - 5)) = n % 10 ^ 5
  rw [decode_drop _ hdig, hdec]

theorem id_ne_of_mod_ne (m n : Nat) (h : m % 100000 ≠ n % 100000) :
    Workout.id m ≠ Workout.id n := by
  intro heq
  apply h
  have hm := decode_id m
  have hn := decode_id n
  rw [heq, hn] at hm
  norm_num at hm
  exact hm.symm

/-- C6, as stated, fails: two submissions made one hundred seconds apart, at
timestamps 1700000000000 and 1700000100000, build records with the same id
`00000`. -/
theorem ids_collide :
    clockA.now ≠ clockB.now
    ∧ ∃ r1 r2, Running.new clockA (40, -73) (.fin 5) (.fin 30) (.fin 150) = .ok r1
      ∧ Running.new clockB (41, -74) (.fin 8) (.fin 40) (.fin 160) = .ok r2
      ∧ r1.id = "00000" ∧ r2.id = "00000" ∧ r1.id = r2.id := by
  refine ⟨by decide, _, _, running_new_eq _ _ _ _ _, running_new_eq _ _ _ _ _, ?_, ?_, ?_⟩ <;> rfl

/-! ## Reading the slot at start-up -/

/-- C9, as stated, fails: with a text in the slot that is not JSON,
`_getLocalStorage` does not complete, the SyntaxError of `JSON.parse` leaves it. -/
theorem getLocalStorage_malformed_throws :
    (App.fresh (some (.malformed "[object Object]")) closedForm)._getLocalStorage
        = .threw (.syntaxError "Unexpected token in JSON: [object Object]")
            (App.fresh (some (.malformed "[object Object]")) closedForm)
    ∧ ¬ ∃ s', (App.fresh (some (.malformed "[object Object]")) closedForm)._getLocalStorage = .returned s' := by
  have h : (App.fresh (some (.malformed "[object Object]")) closedForm)._getLocalStorage
      = .threw (.syntaxError "Unexpected token in JSON: [object Object]")
          (App.fresh (some (.malformed "[object Object]")) closedForm) := rfl
  refine ⟨h, ?_⟩
  rintro ⟨s', hs'⟩
  rw [h] at hs'
  exact Completion.noConfusion hs'

/-- C9, amended: with the slot absent `_getLocalStorage` returns and leaves the
state as it is (the sequence stays empty, no list item); with the slot holding
the serialization of a sequence S of class instances it returns, the sequence
in memory becomes the deserialized S in stored order and one list item per
record is issued; with a text that cannot be parsed it throws the SyntaxError
of `JSON.parse` and leaves the state as it is. -/
theorem getLocalStorage_cases (t : App) :
    (t.storage = none → t._getLocalStorage = .returned t)
    ∧ (∀ S, (∀ w ∈ S, IsInstance w) → t.storage = some (JSON.stringify (.arr S)) →
        ∃ cs, cs.length = S.length ∧ (∀ c ∈ cs, c.isListItem = true)
          ∧ t._getLocalStorage = .returned
              { t with workouts := .arr (S.map restored), commands := t.commands ++ cs })
    ∧ (∀ txt, t.storage = some (.malformed txt) →
        ∃ msg, t._getLocalStorage = .threw (.syntaxError msg) t) := by
  refine ⟨fun h => ?_, fun S hS h => ?_, fun txt h => ?_⟩
  · simp only [App._getLocalStorage, h, JSON.parse, JSVal.truthy]
    rfl
  · exact getLocalStorage_of_stringify t S h (fun w hw => restored_instance w (hS w hw))
  · exact ⟨"Unexpected token in JSON: " ++ txt, by simp only [App._getLocalStorage, h, JSON.parse]⟩

/-- Witness of C9, amended: a new session on an absent slot, and one on the
slot written by a session holding a run and a ride. -/
theorem getLocalStorage_cases_witness :
    (App.fresh none closedForm)._getLocalStorage = .returned (App.fresh none closedForm)
    ∧ ∃ cs, cs.length = 2 ∧ (∀ c ∈ cs, c.isListItem = true)
        ∧ (App.fresh (some (JSON.stringify
              (.arr [.running sampleRunning, .cycling sampleCycling]))) closedForm)._getLocalStorage
          = .returned
              { App.fresh (some (JSON.stringify
                  (.arr [.running sampleRunning, .cycling sampleCycling]))) closedForm with
                workouts := .arr [restored (.running sampleRunning),
                  restored (.cycling sampleCycling)],
                commands := [] ++ cs } :=
  ⟨(getLocalStorage_cases (App.fresh none closedForm)).1 rfl,
   (getLocalStorage_cases (App.fresh (some (JSON.stringify
      (.arr [.running sampleRunning, .cycling sampleCycling]))) closedForm)).2.1
      [.running sampleRunning, .cycling sampleCycling]
      (by
        intro w hw
        simp only [List.mem_cons, List.mem_singleton, List.not_mem_nil, or_false] at hw
        rcases hw with rfl | rfl
        · exact Or.inl ⟨_, rfl⟩
        · exact Or.inr ⟨_, rfl⟩)
      rfl⟩

/-! ## Finding a record by its id -/

theorem get_of_record (w : JSVal) (hw : IsRecord w) (k : Key) : ∃ v, w.get k = .ok v := by
  rcases hw with (⟨r, rfl⟩ | ⟨c, rfl⟩) | ⟨ps, rfl⟩ <;> exact ⟨_, rfl⟩

theorem findById_records (id : String) (S : List JSVal) (hS : ∀ w ∈ S, IsRecord w) :
    findById id S = .ok ((S.find? (hasId id)).getD .undefined) := by
  induction S with
  | nil => rfl
  | cons w S ih =>
    obtain ⟨v, hv⟩ := get_of_record w (hS w (List.mem_cons_self _ _)) .id
    have ih' := ih (fun x hx => hS x (List.mem_cons_of_mem _ hx))
    by_cases h : v.strictEqStr id = true
    · have hid : hasId id w = true := by simp only [hasId, hv, h]
      simp only [findById, hv, bind, Except.bind, h, if_true, pure, Except.pure,
        List.find?_cons, hid, Option.getD_some]
    · have hid : hasId id w = false := by simp only [hasId, hv, h]
      simp only [Bool.not_eq_true] at h
      simp only [findById, hv, bind, Except.bind, h, Bool.false_eq_true, if_false, ih',
        List.find?_cons, hid]

/-- C10, as stated, fails: with a run of id 12345 in memory and the map loaded,
activating an element whose id is 99999 finds no record and the handler throws
a TypeError instead of returning. -/
theorem moveToPopup_miss_throws :
    findById "99999" [.running sampleRunning] = .ok .undefined
    ∧ (awaiting [.running sampleRunning] none closedForm)._moveToPopup (some "99999")
        = .threw (.typeError "Cannot read properties of undefined (reading coords)")
            (awaiting [.running sampleRunning] none closedForm)
    ∧ ¬ ∃ s', (awaiting [.running sampleRunning] none closedForm)._moveToPopup (some "99999")
        = .returned s' := by
  have h : (awaiting [.running sampleRunning] none closedForm)._moveToPopup (some "99999")
        = .threw (.typeError "Cannot read properties of undefined (reading coords)")
            (awaiting [.running sampleRunning] none closedForm) := rfl
  refine ⟨rfl, h, ?_⟩
  rintro ⟨s', hs'⟩
  rw [h] at hs'
  exact Completion.noConfusion hs'

/-- C10, amended: on a sequence S of records, a click outside every workout
element returns with the state as it is; activating an element of id `id`
with the map loaded, when some record reads that id, returns with exactly one
command added, `setView` on the coordinates of the first such record at zoom
13, and nothing else changed; when no record reads that id the lookup gives
`undefined` and the handler throws a TypeError, no command issued and the
state as it is. -/
theorem moveToPopup_cases (s : App) (S : List JSVal) (id : String)
    (hS : s.workouts = .arr S) (hrec : ∀ w ∈ S, IsRecord w) :
    s._moveToPopup none = .returned s
    ∧ (∀ w, S.find? (hasId id) = some w → s.map = true →
        findById id S = .ok w
        ∧ ∃ coords, w.get .coords = .ok coords
          ∧ s._moveToPopup (some id) = .returned
              { s with commands := s.commands ++ [.setView coords mapZoomLevel] })
    ∧ (S.find? (hasId id) = none →
        findById id S = .ok .undefined
        ∧ ∃ msg, s._moveToPopup (some id) = .threw (.typeError msg) s) := by
  have hfind := findById_records id S hrec
  refine ⟨rfl, fun w hw hmap => ?_, fun hnone => ?_⟩
  · rw [hw] at hfind
    obtain ⟨coords, hc⟩ := get_of_record w (hrec w (List.mem_of_find?_eq_some hw)) .coords
    refine ⟨hfind, coords, hc, ?_⟩
    simp only [App._moveToPopup, hS, hfind, Option.getD_some, hmap, hc]
    rfl
  · rw [hnone] at hfind
    refine ⟨hfind, ?_⟩
    by_cases hmap : s.map = true
    · exact ⟨_, by simp only [App._moveToPopup, hS, hfind, Option.getD_none, hmap, JSVal.get]; rfl⟩
    · simp only [Bool.not_eq_true] at hmap
      exact ⟨_, by simp only [App._moveToPopup, hS, hfind, Option.getD_none, hmap]; rfl⟩

/-- Witness of C10, amended: activating the element of the run of id 12345. -/
theorem moveToPopup_cases_witness :
    (awaiting [.running sampleRunning, .cycling sampleCycling] none closedForm)._moveToPopup
        (some "12345")
      = .returned
          { awaiting [.running sampleRunning, .cycling sampleCycling] none closedForm with
            commands := [.setView (coordsVal (40, -73)) 13] } := by
  obtain ⟨-, coords, hc, hrun⟩ :=
    (moveToPopup_cases (awaiting [.running sampleRunning, .cycling sampleCycling] none closedForm)
      [.running sampleRunning, .cycling sampleCycling] "12345" rfl
      (by
        intro w hw
        simp only [List.mem_cons, List.mem_singleton, List.not_mem_nil, or_false] at hw
        rcases hw with rfl | rfl
        · exact Or.inl (Or.inl ⟨_, rfl⟩)
        · exact Or.inl (Or.inr ⟨_, rfl⟩))).2.1 (.running sampleRunning) rfl rfl
  have hcoords : coords = coordsVal (40, -73) := by
    have h2 : (JSVal.running sampleRunning).get .coords = .ok (coordsVal (40, -73)) := rfl
    rw [h2] at hc
    injection hc with hc
    exact hc.symm
  rw [hrun, hcoords]
  rfl

/-! ## Pushing a record and finding it again -/

/-- An accepted submission returns with one instance pushed, whose id is the
id of the clock reading. -/
theorem newWorkout_push (clk : Clock) (s : App) (lat lng : ℚ) (S : List JSVal)
    (hev : s.mapEvent = some (lat, lng)) (hmap : s.map = true) (hS : s.workouts = .arr S)
    (hacc : (s.form.type = "running" ∧ checkInputs [s.form.distance.toNumber,
          s.form.duration.toNumber, s.form.cadence.toNumber] = true)
        ∨ (s.form.type = "cycling" ∧ checkInputs [s.form.distance.toNumber,
          s.form.duration.toNumber] = true)) :
    ∃ r s', IsInstance r ∧ r.get .id = .ok (.str (Workout.id clk.now))
      ∧ s._newWorkout clk = .returned s' ∧ s'.workouts = .arr (S ++ [r])
      ∧ s'.map = true := by
  rcases hacc with ⟨htype, hcheck⟩ | ⟨htype, hcheck⟩
  · obtain ⟨r, hr, ht, hrun⟩ := newWorkout_running clk s lat lng hev htype hcheck
    rw [finishNewWorkout_running r s S hmap hS ht] at hrun
    refine ⟨.running r, _, Or.inl ⟨r, rfl⟩, ?_, hrun, rfl, hmap⟩
    rw [running_new_eq] at hr
    cases hr
    rfl
  · obtain ⟨c, hc, ht, hrun⟩ := newWorkout_cycling clk s lat lng hev htype hcheck
    rw [finishNewWorkout_cycling c s S hmap hS ht] at hrun
    refine ⟨.cycling c, _, Or.inr ⟨c, rfl⟩, ?_, hrun, rfl, hmap⟩
    rw [cycling_new_eq] at hc
    cases hc
    rfl

theorem hasId_iff (id : String) (w : JSVal) :
    hasId id w = true ↔ w.get .id = .ok (.str id) := by
  unfold hasId
  cases h : w.get .id with
  | error e => simp
  | ok v =>
    cases v <;> simp [JSVal.strictEqStr]

/-- C8, as stated, fails: after two accepted submissions one hundred seconds
apart the sequence holds two different records of the same id `00000`, and the
lookup of the id of the record just pushed returns the earlier record. -/
theorem find_returns_earlier_record :
    ∃ s1 s2 r1 r2,
      (awaiting [] none (openForm "running" (.fin 5) (.fin 30) (.fin 150) (.fin 0)))._newWorkout
          clockA = .returned s1
      ∧ ((s1._showForm (41, -74)).fillForm "running" (.fin 8) (.fin 40) (.fin 160)
          (.fin 0))._newWorkout clockB = .returned s2
      ∧ s1.workouts = .arr [.running r1]
      ∧ s2.workouts = .arr [.running r1, .running r2]
      ∧ r2.id = "00000" ∧ r1 ≠ r2
      ∧ findById r2.id [.running r1, .running r2] = .ok (.running r1) := by
  obtain ⟨r1, hr1, ht1, hrun1⟩ := newWorkout_running clockA
    (awaiting [] none (openForm "running" (.fin 5) (.fin 30) (.fin 150) (.fin 0))) 40 (-73)
    rfl rfl (by simp [checkInputs_eq, awaiting, openForm, FieldText.toNumber, JSNum.gt])
  rw [finishNewWorkout_running r1 _ [] rfl rfl ht1] at hrun1
  obtain ⟨r2, hr2, ht2, hrun2⟩ := newWorkout_running clockB
    ((App.fillForm "running" (.fin 8) (.fin 40) (.fin 160) (.fin 0)
      (App._showForm (41, -74)
        { mapEvent := some (40, -73), map := true, workouts := .arr ([] ++ [.running r1]),
          storage := some (JSON.stringify (.arr ([] ++ [JSVal.running r1]))),
          form := { openForm "running" (.fin 5) (.fin 30) (.fin 150) (.fin 0) with
                    display := "none", hidden := true, distance := .empty,
                    duration := .empty, cadence := .empty, elevation := .empty },
          commands := [] ++
            [.placeMarker (coordsVal r1.coords) (.str r1.type) (optStr r1.description),
             .listItem (.str r1.id) (.str r1.type) (optStr r1.description)
               (.num r1.distance) (.num r1.duration) (optNum r1.pace) (.num r1.cadence)] })))
    41 (-74) rfl rfl
    (by simp [checkInputs_eq, App.fillForm, App._showForm, FieldText.toNumber, JSNum.gt])
  rw [finishNewWorkout_running r2 _ [.running r1] rfl rfl ht2] at hrun2
  refine ⟨_, _, r1, r2, hrun1, hrun2, rfl, rfl, ?_, ?_, ?_⟩
  · rw [running_new_eq] at hr2; cases hr2; rfl
  · rw [running_new_eq] at hr1 hr2; cases hr1; cases hr2
    intro h
    have h2 := congrArg Running.coords h
    simp at h2
  · rw [running_new_eq] at hr1 hr2; cases hr1; cases hr2
    rfl

/-- C8, amended: after an accepted submission pushes the new record r onto a
sequence S of records, the lookup of r's id (the id of the clock reading)
succeeds: it returns the first record of S followed by r that reads that id,
which is r itself when no record of S reads that id. -/
theorem find_after_push (clk : Clock) (s : App) (lat lng : ℚ) (S : List JSVal)
    (hev : s.mapEvent = some (lat, lng)) (hmap : s.map = true) (hS : s.workouts = .arr S)
    (hrec : ∀ w ∈ S, IsRecord w)
    (hacc : (s.form.type = "running" ∧ checkInputs [s.form.distance.toNumber,
          s.form.duration.toNumber, s.form.cadence.toNumber] = true)
        ∨ (s.form.type = "cycling" ∧ checkInputs [s.form.distance.toNumber,
          s.form.duration.toNumber] = true)) :
    ∃ r s', s._newWorkout clk = .returned s' ∧ s'.workouts = .arr (S ++ [r])
      ∧ r.get .id = .ok (.str (Workout.id clk.now))
      ∧ ∃ w, findById (Workout.id clk.now) (S ++ [r]) = .ok w ∧ w ∈ S ++ [r]
        ∧ w.get .id = .ok (.str (Workout.id clk.now))
        ∧ (S ++ [r]).find? (hasId (Workout.id clk.now)) = some w
        ∧ ((∀ x ∈ S, x.get .id ≠ .ok (.str (Workout.id clk.now))) → w = r) := by
  obtain ⟨r, s', hinst, hid, hrun, hws, -⟩ := newWorkout_push clk s lat lng S hev hmap hS hacc
  have hrec' : ∀ w ∈ S ++ [r], IsRecord w := by
    intro w hw
    rcases List.mem_append.1 hw with hw | hw
    · exact hrec w hw
    · rw [List.mem_singleton.1 hw]; exact Or.inl hinst
  have hfind := findById_records (Workout.id clk.now) (S ++ [r]) hrec'
  have hr : hasId (Workout.id clk.now) r = true := (hasId_iff _ _).2 hid
  cases hf : (S ++ [r]).find? (hasId (Workout.id clk.now)) with
  | none =>
    have := List.find?_eq_none.1 hf r (by simp)
    exact absurd hr this
  | some w =>
    rw [hf] at hfind
    refine ⟨r, s', hrun, hws, hid, w, hfind, List.mem_of_find?_eq_some hf,
      (hasId_iff _ _).1 (List.find?_some hf), hf, fun hno => ?_⟩
    have hnone : S.find? (hasId (Workout.id clk.now)) = none := by
      rw [List.find?_eq_none]
      intro x hx hx'
      exact hno x hx ((hasId_iff _ _).1 hx')
    rw [List.find?_append, hnone] at hf
    simp only [Option.none_or, List.find?_cons, hr, Option.some.injEq] at hf
    exact hf.symm

/-- Witness of C8, amended: with a run and a ride of id 12345 in memory, a run
submitted at timestamp 1700000100000 gets id 00000, and the lookup of 00000
in the three records passes over the first two and returns the new one. -/
theorem find_after_push_witness :
    ∃ r s', (awaiting [.running sampleRunning, .cycling sampleCycling] none
          (openForm "running" (.fin 8) (.fin 40) (.fin 160) (.fin 0)))._newWorkout clockB
        = .returned s'
      ∧ s'.workouts = .arr ([.running sampleRunning, .cycling sampleCycling] ++ [r])
      ∧ r.get .id = .ok (.str "00000")
      ∧ (JSVal.running sampleRunning).get .id = .ok (.str "12345")
      ∧ (JSVal.cycling sampleCycling).get .id = .ok (.str "12345")
      ∧ findById "00000" ([.running sampleRunning, .cycling sampleCycling] ++ [r]) = .ok r := by
  obtain ⟨r, s', hrun, hws, hid, w, hfind, -, -, -, hw⟩ :=
    find_after_push clockB
      (awaiting [.running sampleRunning, .cycling sampleCycling] none
        (openForm "running" (.fin 8) (.fin 40) (.fin 160) (.fin 0)))
      40 (-73) [.running sampleRunning, .cycling sampleCycling] rfl rfl rfl
      (by
        intro x hx
        simp only [List.mem_cons, List.mem_singleton, List.not_mem_nil, or_false] at hx
        rcases hx with rfl | rfl
        · exact Or.inl (Or.inl ⟨_, rfl⟩)
        · exact Or.inl (Or.inr ⟨_, rfl⟩))
      (Or.inl ⟨rfl, by simp [checkInputs_eq, awaiting, openForm, FieldText.toNumber, JSNum.gt]⟩)
  have hidB : Workout.id clockB.now = "00000" := rfl
  rw [hidB] at hid hfind hw
  have hwr : w = r := by
    apply hw
    intro x hx
    simp only [List.mem_cons, List.mem_singleton, List.not_mem_nil, or_false] at hx
    rcases hx with rfl | rfl
    · rw [get_id_running]; simp [sampleRunning]
    · rw [get_id_cycling]; simp [sampleCycling]
  rw [hwr] at hfind
  exact ⟨r, s', hrun, hws, hid, rfl, rfl, hfind⟩

/-! ## Ids along a session -/

theorem renderWorkoutMarker_workouts (w : JSVal) (s s1 : App)
    (h : s._renderWorkoutMarker w = .ok s1) : s1.workouts = s.workouts := by
  unfold App._renderWorkoutMarker at h
  cases hc : w.get .coords <;> cases ht : w.get .type <;> cases hd : w.get .description
    <;> cases hm : s.map
    <;> simp [hc, ht, hd, hm, bind, Except.bind, pure, Except.pure, throw, throwThe,
      MonadExcept.throw] at h
  subst h
  rfl

theorem renderWorkout_workouts (w : JSVal) (s s1 : App)
    (h : s._renderWorkout w = .ok s1) : s1.workouts = s.workouts := by
  unfold App._renderWorkout at h
  cases h1 : w.get .type with
  | error e => simp [h1, bind, Except.bind] at h
  | ok type =>
    have hall : ∀ k, ∃ v, w.get k = .ok v := by
      intro k
      cases w <;> first | exact ⟨_, rfl⟩ | simp [JSVal.get] at h1
    obtain ⟨v2, h2⟩ := hall .id
    obtain ⟨v3, h3⟩ := hall .description
    obtain ⟨v4, h4⟩ := hall .distance
    obtain ⟨v5, h5⟩ := hall .duration
    obtain ⟨v6, h6⟩ := hall .pace
    obtain ⟨v7, h7⟩ := hall .cadence
    obtain ⟨v8, h8⟩ := hall .speed
    obtain ⟨v9, h9⟩ := hall .elevationGain
    by_cases hr : type.strictEqStr "running" = true
    · simp [h1, h2, h3, h4, h5, h6, h7, hr, bind, Except.bind, pure, Except.pure] at h
      subst h; rfl
    · simp [h1, h2, h3, h4, h5, h8, h9, hr, bind, Except.bind, pure, Except.pure] at h
      subst h; rfl

/-- Whatever way the rest of `_newWorkout` ends, the sequence it leaves is the
one it found, or that one with the workout pushed. -/
theorem finishNewWorkout_workouts (w : JSVal) (s : App) (ws : List JSVal)
    (hws : s.workouts = .arr ws) :
    (s.finishNewWorkout w).state.workouts = .arr ws
    ∨ (s.finishNewWorkout w).state.workouts = .arr (ws ++ [w]) := by
  unfold App.finishNewWorkout
  cases h1 : s._renderWorkoutMarker w with
  | error e => exact Or.inl hws
  | ok s1 =>
    have hs1 := renderWorkoutMarker_workouts w s s1 h1
    dsimp only
    cases h2 : s1._renderWorkout w with
    | error e => exact Or.inl (hs1.trans hws)
    | ok s2 =>
      have hs2 : s2.workouts = .arr ws := (renderWorkout_workouts w s1 s2 h2).trans (hs1.trans hws)
      dsimp only
      rw [hs2]
      exact Or.inr rfl

/-- Whatever way `_newWorkout` ends, the sequence it leaves is the one it
found, or that one with one instance pushed whose id is that of the clock
reading. -/
theorem newWorkout_workouts (clk : Clock) (s : App) (ws : List JSVal)
    (hws : s.workouts = .arr ws) :
    (s._newWorkout clk).state.workouts = .arr ws
    ∨ ∃ r, IsInstance r ∧ r.get .id = .ok (.str (Workout.id clk.now))
        ∧ (s._newWorkout clk).state.workouts = .arr (ws ++ [r]) := by
  unfold App._newWorkout
  simp only
  split
  · exact Or.inl hws
  · split
    · split
      · exact Or.inl hws
      · simp only [running_new_eq]
        rcases finishNewWorkout_workouts (.running _) s ws hws with h | h
        · exact Or.inl h
        · exact Or.inr ⟨_, Or.inl ⟨_, rfl⟩, get_id_running _, h⟩
    · split
      · split
        · exact Or.inl hws
        · simp only [cycling_new_eq]
          rcases finishNewWorkout_workouts (.cycling _) s ws hws with h | h
          · exact Or.inl h
          · exact Or.inr ⟨_, Or.inr ⟨_, rfl⟩, get_id_cycling _, h⟩
      · have hthrow : s.finishNewWorkout .undefined = .threw
            (.typeError "Cannot read properties of undefined (reading coords)") s := rfl
        rw [hthrow]
        exact Or.inl hws

theorem submit_workouts (sub : Submission) (s : App) (ws : List JSVal)
    (hws : s.workouts = .arr ws) :
    (s.submit sub).workouts = .arr ws
    ∨ ∃ r, IsInstance r ∧ r.get .id = .ok (.str (Workout.id sub.clk.now))
        ∧ (s.submit sub).workouts = .arr (ws ++ [r]) :=
  newWorkout_workouts sub.clk _ ws hws

/-- Along a session whose timestamps are pairwise incongruent modulo 100000
among themselves and with those in `T`, a sequence of instances with pairwise
distinct ids, all of them ids of timestamps in `T`, stays such a sequence. -/
theorem session_ids (subs : List Submission) : ∀ (s : App) (ws : List JSVal) (T : List Nat),
    s.workouts = .arr ws →
    (∀ w ∈ ws, IsInstance w ∧ ∃ n ∈ T, w.get .id = .ok (.str (Workout.id n))) →
    ws.Pairwise (fun a b => a.get .id ≠ b.get .id) →
    (∀ n ∈ T, ∀ a ∈ subs, n % 100000 ≠ a.clk.now % 100000) →
    subs.Pairwise (fun a b => a.clk.now % 100000 ≠ b.clk.now % 100000) →
    ∃ ws', (s.session subs).workouts = .arr ws' ∧ (∀ w ∈ ws', IsInstance w)
      ∧ ws'.Pairwise (fun a b => a.get .id ≠ b.get .id) := by
  induction subs with
  | nil =>
    intro s ws T hws hT hpw _ _
    exact ⟨ws, hws, fun w hw => (hT w hw).1, hpw⟩
  | cons a subs ih =>
    intro s ws T hws hT hpw hTa hinc
    have hinc' := List.pairwise_cons.1 hinc
    have hstep : (s.session (a :: subs)) = (s.submit a).session subs := rfl
    rw [hstep]
    rcases submit_workouts a s ws hws with h | ⟨r, hinst, hid, h⟩
    · exact ih (s.submit a) ws T h hT hpw
        (fun n hn b hb => hTa n hn b (List.mem_cons_of_mem _ hb)) hinc'.2
    · refine ih (s.submit a) (ws ++ [r]) (a.clk.now :: T) h ?_ ?_ ?_ hinc'.2
      · intro w hw
        rcases List.mem_append.1 hw with hw | hw
        · obtain ⟨hi, n, hn, hwn⟩ := hT w hw
          exact ⟨hi, n, List.mem_cons_of_mem _ hn, hwn⟩
        · rw [List.mem_singleton.1 hw]
          exact ⟨hinst, a.clk.now, List.mem_cons_self _ _, hid⟩
      · rw [List.pairwise_append]
        refine ⟨hpw, List.pairwise_singleton _ _, ?_⟩
        intro w hw x hx
        rw [List.mem_singleton.1 hx, hid]
        obtain ⟨-, n, hn, hwn⟩ := hT w hw
        rw [hwn]
        intro heq
        injection heq with heq
        injection heq with heq
        exact id_ne_of_mod_ne n a.clk.now (hTa n hn a (List.mem_cons_self _ _)) heq
      · intro n hn b hb
        rcases List.mem_cons.1 hn with rfl | hn
        · exact hinc'.1 b hb
        · exact hTa n hn b (List.mem_cons_of_mem _ hb)

/-- C6, amended: two records built (by either constructor) at clock readings
whose timestamps are not congruent modulo 100000 have distinct ids, the id
being the text of the last five decimal digits, which denote the timestamp
modulo 100000; hence the sequence a session builds through `_newWorkout` from
an empty sequence, at timestamps pairwise incongruent modulo 100000, has
pairwise distinct ids. -/
theorem ids_distinct_of_incongruent (clk1 clk2 : Clock)
    (h : clk1.now % 100000 ≠ clk2.now % 100000) :
    decode (Workout.id clk1.now).toList = clk1.now % 100000
    ∧ Workout.id clk1.now ≠ Workout.id clk2.now
    ∧ (∀ c1 c2 d1 d2 t1 t2 x1 x2 r1 r2,
        Running.new clk1 c1 d1 t1 x1 = .ok r1 → Running.new clk2 c2 d2 t2 x2 = .ok r2 →
        r1.id ≠ r2.id)
    ∧ (∀ c1 c2 d1 d2 t1 t2 x1 x2 r1 r2,
        Cycling.new clk1 c1 d1 t1 x1 = .ok r1 → Cycling.new clk2 c2 d2 t2 x2 = .ok r2 →
        r1.id ≠ r2.id)
    ∧ (∀ c1 c2 d1 d2 t1 t2 x1 x2 r1 r2,
        Running.new clk1 c1 d1 t1 x1 = .ok r1 → Cycling.new clk2 c2 d2 t2 x2 = .ok r2 →
        r1.id ≠ r2.id)
    ∧ (∀ (subs : List Submission) (s0 : App), s0.workouts = .arr [] →
        subs.Pairwise (fun a b => a.clk.now % 100000 ≠ b.clk.now % 100000) →
        ∃ ws, (s0.session subs).workouts = .arr ws ∧ (∀ w ∈ ws, IsInstance w)
          ∧ ws.Pairwise (fun a b => a.get .id ≠ b.get .id)) := by
  have hne := id_ne_of_mod_ne _ _ h
  refine ⟨decode_id _, hne, ?_, ?_, ?_, ?_⟩
  · intro c1 c2 d1 d2 t1 t2 x1 x2 r1 r2 h1 h2
    rw [running_new_eq] at h1 h2
    cases h1; cases h2; exact hne
  · intro c1 c2 d1 d2 t1 t2 x1 x2 r1 r2 h1 h2
    rw [cycling_new_eq] at h1 h2
    cases h1; cases h2; exact hne
  · intro c1 c2 d1 d2 t1 t2 x1 x2 r1 r2 h1 h2
    rw [running_new_eq] at h1
    rw [cycling_new_eq] at h2
    cases h1; cases h2; exact hne
  · intro subs s0 h0 hinc
    exact session_ids subs s0 [] [] h0 (fun w hw => absurd hw (List.not_mem_nil w))
      List.Pairwise.nil (fun n hn => absurd hn (List.not_mem_nil n)) hinc

/-- The sample session pushes two records. -/
theorem sample_session_length :
    ∃ ws, ((awaiting [] none closedForm).session sampleSubmissions).workouts = .arr ws
      ∧ ws.length = 2 := by
  simp [App.session, sampleSubmissions, App.submit, App._showForm, App.fillForm, awaiting,
    closedForm, App._newWorkout, checkInputs_eq, FieldText.toNumber, JSNum.gt, running_new_eq,
    cycling_new_eq, App.finishNewWorkout, App._renderWorkoutMarker, App._renderWorkout,
    get_coords_running, get_type_running, get_description_running, get_id_running,
    get_distance_running, get_duration_running, get_pace_running, get_cadence_running,
    get_coords_cycling, get_type_cycling, get_description_cycling, get_id_cycling,
    get_distance_cycling, get_duration_cycling, get_speed_cycling, get_elevationGain_cycling,
    bind, Except.bind, pure, Except.pure, JSVal.strictEqStr, Completion.state,
    App._hideForm, App._setLocalStorage]

/-- Witness of C6, amended: timestamps 1700000012345 and 1700000100000, and
the session of a run and a ride submitted at them, which builds a sequence of
two records with distinct ids. -/
theorem ids_distinct_of_incongruent_witness :
    Workout.id sampleClock.now ≠ Workout.id clockB.now
    ∧ ∃ ws, ((awaiting [] none closedForm).session sampleSubmissions).workouts = .arr ws
        ∧ ws.length = 2
        ∧ (∀ w ∈ ws, IsInstance w) ∧ ws.Pairwise (fun a b => a.get .id ≠ b.get .id) := by
  obtain ⟨ws, hws, hinst, hpw⟩ :=
    (ids_distinct_of_incongruent sampleClock clockB (by decide)).2.2.2.2.2
      sampleSubmissions (awaiting [] none closedForm) rfl
      (by simp [sampleSubmissions, sampleClock, clockB])
  obtain ⟨ws', hws', hlen⟩ := sample_session_length
  have heq : ws = ws' := by
    rw [hws] at hws'
    injection hws'
  exact ⟨(ids_distinct_of_incongruent sampleClock clockB (by decide)).2.1,
    ws, hws, heq ▸ hlen, hinst, hpw⟩

end NaviTrack
